/-
Verification of the reconciliation and batch-update engine of the
SQL Data Importer (Config.py, Database.py, Gui.py, Main.py).

The Python source is shallowly embedded: dynamic cell values become a closed
variant `Value`; pandas DataFrames become `DataFrame` (a column-name list plus
positional rows); fallible operations (KeyError on a missing column, database
query failure) return `Except`.  Floating-point cell values are modelled as
rationals: every comparison exercised here (absolute differences against the
1e-6 tolerance at the magnitudes appearing in the spec) has the same verdict
for IEEE doubles and for exact rationals.  Label lookup on a frame with
duplicated column labels resolves to the first occurrence; the flows proved
about below do not produce duplicated labels.  Database execution failures are
modelled by an explicit failure oracle passed to the update routine.
-/
import Mathlib

set_option maxHeartbeats 1000000

namespace Importer

/-- Dynamic per-cell value: the closed variant over null, string, Python int
and Python float (modelled as a rational). -/
inductive Value where
  | null
  | str (s : String)
  | int (n : Int)
  | float (q : ℚ)
  deriving DecidableEq, Repr

/-- Canonical interpretation of a value, used to reason about Python `==`:
Python compares ints and floats numerically across types. -/
def interp : Value → (Unit ⊕ String ⊕ ℚ)
  | .null => Sum.inl ()
  | .str s => Sum.inr (Sum.inl s)
  | .int n => Sum.inr (Sum.inr (n : ℚ))
  | .float q => Sum.inr (Sum.inr q)

/-- Python `==` on cell values (`a == b`): ints and floats compare
numerically, other kinds compare within their kind. -/
def pyEq : Value → Value → Bool
  | .null, .null => true
  | .str a, .str b => decide (a = b)
  | .int a, .int b => decide (a = b)
  | .float a, .float b => decide (a = b)
  | .int a, .float b => decide ((a : ℚ) = b)
  | .float a, .int b => decide (a = (b : ℚ))
  | _, _ => false

/-- DataValidator (Config.py): the numeric-declared column set and the float
comparison threshold (default 1e-6). -/
structure DataValidator where
  numeric_columns : List String
  float_threshold : ℚ
  deriving DecidableEq, Repr

/-- DataValidator.compare_values (Config.py lines 292-311): returns true when
the values are DIFFERENT.  A null Excel value is never a difference; two float
values differ when `|a - b| > threshold`; every other pair differs exactly
when Python-unequal. -/
def compare_values (v : DataValidator) (excelVal sqlVal : Value) : Bool :=
  if excelVal = Value.null then false
  else
    match excelVal, sqlVal with
    | .float a, .float b => decide (|a - b| > v.float_threshold)
    | a, b => !(pyEq a b)

/-- Characters stripped by Python `str.strip()` that occur in this pipeline. -/
def isPySpace (c : Char) : Bool :=
  c = ' ' || c = '\t' || c = '\n' || c = '\r' || c = ' '

/-- Python `str.strip()` (restricted to the whitespace kinds above). -/
def pyStrip (s : String) : String :=
  String.mk (((s.toList.dropWhile isPySpace).reverse.dropWhile isPySpace).reverse)

/-- Header normalisation of process_sheet (Config.py lines 359-363):
`.str.strip()`, then non-breaking space to space, then drop newline,
carriage-return and tab characters. -/
def cleanHeader (s : String) : String :=
  String.mk ((((pyStrip s).toList.map
    (fun c => if c = ' ' then ' ' else c)).filter
    (fun c => !(c = '\n' || c = '\r' || c = '\t'))))

/-- Python `str(value)`, as used by `.astype(str)`; the rendering of numbers
only feeds string-membership tests here, so an abstract rendering is used. -/
def pyStrOfValue : Value → String
  | .null => "None"
  | .str s => s
  | .int n => toString n
  | .float q => toString q

/-- Numeric value of a digit list. -/
def digitsToNat (ds : List Char) : Nat :=
  ds.foldl (fun n c => n * 10 + (c.toNat - 48)) 0

/-- All characters are decimal digits. -/
def allDigits (ds : List Char) : Bool := ds.all (fun c => c.isDigit)

/-- Parse an unsigned decimal literal as `pd.to_numeric` would classify it:
an integer literal yields an int, a literal with a decimal point yields a
float.  (Exponent and hexadecimal forms are not exercised by this pipeline.) -/
def parseUnsigned (cs : List Char) : Option Value :=
  match cs.splitOn '.' with
  | [w] => if w ≠ [] ∧ allDigits w then some (.int (digitsToNat w)) else none
  | [w, f] =>
      if (w ≠ [] ∨ f ≠ []) ∧ allDigits w ∧ allDigits f then
        some (.float ((digitsToNat w : ℚ) + (digitsToNat f : ℚ) / (10 : ℚ) ^ f.length))
      else none
  | _ => none

/-- Parse an optionally signed decimal literal. -/
def parseDecimal (s : String) : Option Value :=
  match s.toList with
  | '-' :: rest =>
      (parseUnsigned rest).map (fun v =>
        match v with
        | .int n => .int (-n)
        | .float q => .float (-q)
        | v => v)
  | '+' :: rest => parseUnsigned rest
  | cs => parseUnsigned cs

/-- Element-level outcome of `pd.to_numeric(..., errors="coerce")`: `none` is
a coercion failure (NaN).  Numbers pass through, strings are parsed after
stripping whitespace, null/NaN stays NaN. -/
def coerceCell : Value → Option Value
  | .null => none
  | .int n => some (.int n)
  | .float q => some (.float q)
  | .str s => parseDecimal (pyStrip s)

/-- A pandas frame: named columns over positional rows. -/
structure DataFrame where
  columns : List String
  rows : List (List Value)
  deriving DecidableEq, Repr

/-- First index of a column label, `none` when absent. -/
def colIndex : List String → String → Option Nat
  | [], _ => none
  | c :: cs, t => if c = t then some 0 else (colIndex cs t).map (· + 1)

/-- Cell of a positional row under a column-label list (first occurrence). -/
def rowGetD (cols : List String) (r : List Value) (c : String) : Value :=
  match colIndex cols c with
  | some i => r.getD i Value.null
  | none => Value.null

/-- Cell of a frame row, as used in the frame. -/
def DataFrame.getD (df : DataFrame) (r : List Value) (c : String) : Value :=
  rowGetD df.columns r c

/-- Label lookup that raises KeyError when the label is absent, as pandas
`row[col]` / `df[col]` does. -/
def lookupCell (df : DataFrame) (r : List Value) (c : String) : Except String Value :=
  match colIndex df.columns c with
  | some i => .ok (r.getD i Value.null)
  | none => .error "KeyError: column not found"

/-- Column assignment `df[c] = f(df[c])`. -/
def setColumn (df : DataFrame) (c : String) (f : Value → Value) : DataFrame :=
  match colIndex df.columns c with
  | some i => ⟨df.columns, df.rows.map (fun r => r.set i (f (r.getD i Value.null)))⟩
  | none => df

/-- Column selection `df[cs]`. -/
def selectCols (df : DataFrame) (cs : List String) : DataFrame :=
  ⟨cs, df.rows.map (fun r => cs.map (fun c => rowGetD df.columns r c))⟩

/-- The `pd.DataFrame()` literal: no columns, no rows. -/
def emptyDataFrame : DataFrame := ⟨[], []⟩

/-- ProcessingConfig (Config.py): column mapping (a finite map, keys unique by
construction in ConfigLoader), allowed sheets, ignored headers. -/
structure ProcessingConfig where
  column_mapping : List (String × String)
  allowed_sheets : List String
  ignored_headers : List String
  deriving DecidableEq, Repr

/-- ValidationError (Config.py). -/
structure VError where
  sheet_name : String
  tag_number : Value
  excel_header : String
  invalid_value : Value
  error_reason : String
  deriving DecidableEq, Repr

/-- SheetResult (Config.py). -/
structure SheetResult where
  sheet_name : String
  result : String
  status : String
  update_count : Nat
  deriving DecidableEq, Repr

/-- A changeset `(tag_number, {column: new_value})`. -/
abbrev Changeset := Value × List (String × Value)

/-- SheetProcessor (Config.py): processing config, store columns, validator
and the key column name. -/
structure SheetProcessor where
  config : ProcessingConfig
  sql_columns : List String
  validator : DataValidator
  tag_column : String
  deriving DecidableEq, Repr

/-- Column dtype unification of `pd.to_numeric` on one column: if any element
failed (NaN) or any element is a float, the whole column is float (ints are
widened); otherwise the column stays int. -/
def colIsFloat (parsed : List (Option Value)) : Bool :=
  parsed.any (fun o =>
    match o with
    | none => true
    | some (.float _) => true
    | some _ => false)

/-- Values of a converted numeric column after dtype unification. -/
def numericColumnValues (parsed : List (Option Value)) : List Value :=
  if colIsFloat parsed then
    parsed.map (fun o =>
      match o with
      | none => Value.null
      | some (.int n) => Value.float (n : ℚ)
      | some v => v)
  else
    parsed.map (fun o =>
      match o with
      | some v => v
      | none => Value.null)

/-- Replace one column by its numeric coercion (no-op when absent). -/
def convertColumn (df : DataFrame) (col : String) : DataFrame :=
  match colIndex df.columns col with
  | none => df
  | some i =>
      let parsed := df.rows.map (fun r => coerceCell (r.getD i Value.null))
      ⟨df.columns, (df.rows.zip (numericColumnValues parsed)).map (fun p => p.1.set i p.2)⟩

/-- Coercion-failure errors of one numeric column (Config.py lines 270-287):
converted value is NaN while the raw value is present and does not stringify
to whitespace. -/
def numericErrorsFor (sheetName tagCol : String) (df : DataFrame) (col : String) :
    List VError :=
  match colIndex df.columns col with
  | none => []
  | some i =>
      df.rows.filterMap (fun r =>
        if (coerceCell (r.getD i Value.null)).isNone ∧ r.getD i Value.null ≠ Value.null ∧
            pyStrip (pyStrOfValue (r.getD i Value.null)) ≠ "" then
          some ⟨sheetName, rowGetD df.columns r tagCol, col, r.getD i Value.null,
                "Type Mismatch - Expected numeric value"⟩
        else none)

/-- DataValidator.validate_numeric_columns (Config.py lines 242-290):
convert every numeric-declared column that is present, collecting the
coercion failures column by column against the pristine input frame. -/
def validateNumericColumns (v : DataValidator) (sheetName tagCol : String)
    (df : DataFrame) : DataFrame × List VError :=
  (v.numeric_columns.foldl convertColumn df,
   v.numeric_columns.foldl (fun es col => es ++ numericErrorsFor sheetName tagCol df col) [])

/-- Element map of SheetProcessor._clean_dataframe (Config.py lines 420-430):
NaN is already `null` here, and the empty string becomes null.  A
whitespace-only string is NOT replaced. -/
def cleanValue : Value → Value
  | .str s => if s = "" then Value.null else Value.str s
  | v => v

/-- SheetProcessor._clean_dataframe. -/
def clean_dataframe (df : DataFrame) : DataFrame :=
  ⟨df.columns, df.rows.map (fun r => r.map cleanValue)⟩

/-- `df.rename(columns=lambda x: mapping.get(x, x))`. -/
def renameColumns (mapping : List (String × String)) (cols : List String) : List String :=
  cols.map (fun c => ((mapping.find? (fun p => p.1 = c)).map (·.2)).getD c)

/-- Per-row field comparison of SheetProcessor._identify_updates: walk the
columns to check, reading the Excel and SQL cells (KeyError when a label is
absent) and record each differing column with its Excel value. -/
def buildChanges (v : DataValidator) (excelDf sqlDf : DataFrame)
    (erow srow : List Value) : List String → Except String (List (String × Value))
  | [] => .ok []
  | c :: cs =>
    match lookupCell excelDf erow c with
    | .error e => .error e
    | .ok ev =>
      match lookupCell sqlDf srow c with
      | .error e => .error e
      | .ok sv =>
        match buildChanges v excelDf sqlDf erow srow cs with
        | .error e => .error e
        | .ok rest =>
          if compare_values v ev sv then .ok ((c, ev) :: rest) else .ok rest

/-- Row loop of SheetProcessor._identify_updates (Config.py lines 432-471):
for each Excel row, read its tag, select the SQL rows with that tag (KeyError
when the tag column is absent from the SQL frame, e.g. when it is the empty
`pd.DataFrame()`), take the first match, and emit a changeset when at least
one checked column differs. -/
def identifyUpdatesAux (v : DataValidator) (tagCol : String)
    (excelDf sqlDf : DataFrame) (cols : List String) :
    List (List Value) → Except String (List Changeset)
  | [] => .ok []
  | erow :: rest =>
    match lookupCell excelDf erow tagCol with
    | .error e => .error e
    | .ok tag =>
      if sqlDf.columns.contains tagCol then
        match sqlDf.rows.filter (fun r => pyEq (rowGetD sqlDf.columns r tagCol) tag) with
        | [] => identifyUpdatesAux v tagCol excelDf sqlDf cols rest
        | srow :: _ =>
          match buildChanges v excelDf sqlDf erow srow cols with
          | .error e => .error e
          | .ok changes =>
            match identifyUpdatesAux v tagCol excelDf sqlDf cols rest with
            | .error e => .error e
            | .ok more =>
              if changes.isEmpty then .ok more else .ok ((tag, changes) :: more)
      else .error "KeyError: tag column missing from reference data"

/-- SheetProcessor._identify_updates. -/
def identify_updates (v : DataValidator) (tagCol : String)
    (excelDf sqlDf : DataFrame) (cols : List String) : Except String (List Changeset) :=
  identifyUpdatesAux v tagCol excelDf sqlDf cols excelDf.rows

/-- Columns of the sheet after header normalisation and mapping. -/
def mappedColumns (sp : SheetProcessor) (raw : DataFrame) : List String :=
  renameColumns sp.config.column_mapping (raw.columns.map cleanHeader)

/-- The sheet frame after header normalisation and mapping. -/
def mappedDf (sp : SheetProcessor) (raw : DataFrame) : DataFrame :=
  ⟨mappedColumns sp raw, raw.rows⟩

/-- The frame after `df[tag] = df[tag].astype(str).str.strip()`. -/
def taggedDf (sp : SheetProcessor) (raw : DataFrame) : DataFrame :=
  setColumn (mappedDf sp raw) sp.tag_column
    (fun v => Value.str (pyStrip (pyStrOfValue v)))

/-- The frame after `df = df[df[tag].isin(existing_tags)]`. -/
def filteredDf (sp : SheetProcessor) (raw : DataFrame) (existingTags : List String) :
    DataFrame :=
  let d := taggedDf sp raw
  ⟨d.columns, d.rows.filter (fun r =>
    match rowGetD d.columns r sp.tag_column with
    | .str s => existingTags.contains s
    | _ => false)⟩

/-- `valid_columns` (Config.py lines 390-393): sheet columns that are store
columns and not ignored.  Membership in the mapping's targets is NOT
required. -/
def validColumns (sp : SheetProcessor) (raw : DataFrame) : List String :=
  (mappedColumns sp raw).filter
    (fun c => sp.sql_columns.contains c && !(sp.config.ignored_headers.contains c))

/-- The frame after `df = df[valid_columns + [tag_column]]`. -/
def selectedDf (sp : SheetProcessor) (raw : DataFrame) (existingTags : List String) :
    DataFrame :=
  selectCols (filteredDf sp raw existingTags) (validColumns sp raw ++ [sp.tag_column])

/-- SheetProcessor.process_sheet (Config.py lines 329-418): normalise and map
headers, skip when the tag column is missing, trim and filter tags, skip when
no tag matches, select in-scope columns, validate numeric columns, clean, and
diff against the given SQL frame. -/
def process_sheet (sp : SheetProcessor) (sheetName : String) (raw : DataFrame)
    (existingTags : List String) (sqlData : DataFrame) :
    Except String (SheetResult × List Changeset × List VError) :=
  if !(mappedColumns sp raw).contains sp.tag_column then
    .ok (⟨sheetName, "Tag Column Missing", "SKIP", 0⟩, [], [])
  else if (filteredDf sp raw existingTags).rows.isEmpty then
    .ok (⟨sheetName, "No Valid Tags", "SKIP", 0⟩, [], [])
  else
    match identify_updates sp.validator sp.tag_column
        (clean_dataframe (validateNumericColumns sp.validator sheetName sp.tag_column
          (selectedDf sp raw existingTags)).1) sqlData (validColumns sp raw) with
    | .error e => .error e
    | .ok updates =>
      .ok (⟨sheetName,
            (if updates.isEmpty then "No changes"
             else toString updates.length ++ " changes detected"),
            "DRY-RUN", updates.length⟩,
           updates,
           (validateNumericColumns sp.validator sheetName sp.tag_column
             (selectedDf sp raw existingTags)).2)

/-- Row image of one `UPDATE ... SET col = ?, ...`: set each named column of
the row (column identifiers resolve against the store's column list). -/
def applyChangesToRow (cols : List String) (changes : List (String × Value))
    (r : List Value) : List Value :=
  changes.foldl (fun row pc =>
    match colIndex cols pc.1 with
    | some i => row.set i pc.2
    | none => row) r

/-- One `UPDATE <table> SET ... WHERE [tag_column] = ?`: rewrites every store
row whose tag matches and reports the affected row count (`cursor.rowcount`). -/
def applyOneUpdate (tagCol : String) (store : DataFrame) (tag : Value)
    (changes : List (String × Value)) : DataFrame × Nat :=
  (⟨store.columns, store.rows.map (fun r =>
      if pyEq (rowGetD store.columns r tagCol) tag then
        applyChangesToRow store.columns changes r
      else r)⟩,
   (store.rows.filter (fun r => pyEq (rowGetD store.columns r tagCol) tag)).length)

/-- Transaction body of DatabaseManager.batch_update_records (Database.py
lines 230-259): changesets with no fields are skipped; a failing statement
(modelled by the oracle) aborts with QueryError; otherwise each update is
executed and the affected counts accumulate. -/
def batchUpdateAux (tagCol : String) (oracle : Value → List (String × Value) → Bool) :
    DataFrame → Nat → List Changeset → Except String (DataFrame × Nat)
  | cur, count, [] => .ok (cur, count)
  | cur, count, u :: rest =>
    if u.2.isEmpty then batchUpdateAux tagCol oracle cur count rest
    else if oracle u.1 u.2 then .error "QueryError: Failed to update records"
    else
      batchUpdateAux tagCol oracle (applyOneUpdate tagCol cur u.1 u.2).1
        (count + (applyOneUpdate tagCol cur u.1 u.2).2) rest

/-- DatabaseManager.batch_update_records (Database.py lines 212-267): on
success the transaction commits (new store state plus total affected count);
on the first failure the transaction is rolled back — the returned store is
the original one — and QueryError is raised. -/
def batch_update_records (tagCol : String)
    (oracle : Value → List (String × Value) → Bool) (store : DataFrame)
    (updates : List Changeset) : DataFrame × Except String Nat :=
  match batchUpdateAux tagCol oracle store 0 updates with
  | .ok p => (p.1, .ok p.2)
  | .error e => (store, .error e)

/-- Split a list into chunks of `n` (the batching of fetch_records_by_tags;
`n = 0` never occurs, the configured batch size defaults to 2000). -/
def chunkList {α : Type} (n : Nat) : List α → List (List α)
  | [] => []
  | a :: rest => (a :: rest.take (n - 1)) :: chunkList n (rest.drop (n - 1))
  termination_by l => l.length
  decreasing_by simp only [List.length_drop, List.length_cons]; omega

/-- DatabaseManager.fetch_records_by_tags (Database.py lines 165-210):
`SELECT * FROM table WHERE [tag] IN (chunk)` per chunk, results concatenated;
an empty tag list yields the empty `pd.DataFrame()`. -/
def fetch_records_by_tags (tagCol : String) (store : DataFrame)
    (tags : List Value) (batchSize : Nat) : DataFrame :=
  if tags.isEmpty then emptyDataFrame
  else
    ⟨store.columns,
     (chunkList batchSize tags).foldl (fun acc chunk =>
       acc ++ store.rows.filter (fun r =>
         chunk.any (fun t => pyEq (rowGetD store.columns r tagCol) t))) []⟩

/-- DatabaseManager.get_existing_tags (Database.py lines 134-163): the set of
trimmed, stringified tag values of the store. -/
def get_existing_tags (tagCol : String) (store : DataFrame) : List String :=
  (store.rows.map (fun r => pyStrip (pyStrOfValue (rowGetD store.columns r tagCol)))).dedup

/-- ImportResult (Gui.py import service section). -/
structure ImportResult where
  success : Bool
  sheet_results : List SheetResult
  total_detected_updates : Nat
  total_committed_updates : Nat
  validation_errors : List VError
  error_report_path : Option String
  error_message : Option String
  deriving DecidableEq, Repr

/-- Accumulator of the per-sheet loop of _process_excel_file, extended with
the store state and the number of batch-update invocations (an explicit
effect trace of the database write path). -/
structure RunState where
  sheetResults : List SheetResult
  allErrors : List VError
  totalDetected : Nat
  totalCommitted : Nat
  store : DataFrame
  batchCalls : Nat
  deriving DecidableEq, Repr

/-- Per-sheet body of ImportService._process_excel_file (Gui.py lines
704-761): phase one diffs against the empty `pd.DataFrame()`; when it yields
changesets, the matching records are fetched and the sheet is re-processed;
detected changesets are then applied unless dry_run; any exception from the
two process_sheet calls is caught and recorded as a "Processing Error" /
"ERROR" sheet result; a QueryError from the update marks the sheet "ERROR"
while keeping its diff description. -/
def processOneSheet (sp : SheetProcessor) (existingTags : List String)
    (batchSize : Nat) (oracle : Value → List (String × Value) → Bool)
    (dryRun : Bool) (st : RunState) (sheet : String × DataFrame) : RunState :=
  match process_sheet sp sheet.1 sheet.2 existingTags emptyDataFrame with
  | .error _ =>
      { st with sheetResults := st.sheetResults ++ [⟨sheet.1, "Processing Error", "ERROR", 0⟩] }
  | .ok r1 =>
    match (if r1.2.1.isEmpty then Except.ok r1
           else
             process_sheet sp sheet.1 sheet.2 existingTags
               (fetch_records_by_tags sp.tag_column st.store (r1.2.1.map (·.1)) batchSize)) with
    | .error _ =>
        { st with sheetResults := st.sheetResults ++ [⟨sheet.1, "Processing Error", "ERROR", 0⟩] }
    | .ok (res, updates, verrs) =>
      if updates.isEmpty then
        { st with sheetResults := st.sheetResults ++ [res],
                  allErrors := st.allErrors ++ verrs }
      else if dryRun then
        { st with sheetResults := st.sheetResults ++ [res],
                  allErrors := st.allErrors ++ verrs,
                  totalDetected := st.totalDetected + updates.length }
      else
        match batch_update_records sp.tag_column oracle st.store updates with
        | (store2, .ok n) =>
          { st with sheetResults := st.sheetResults ++ [{ res with status := "UPDATED" }],
                    allErrors := st.allErrors ++ verrs,
                    totalDetected := st.totalDetected + updates.length,
                    totalCommitted := st.totalCommitted + n,
                    store := store2,
                    batchCalls := st.batchCalls + 1 }
        | (store2, .error _) =>
          { st with sheetResults := st.sheetResults ++ [{ res with status := "ERROR" }],
                    allErrors := st.allErrors ++ verrs,
                    totalDetected := st.totalDetected + updates.length,
                    store := store2,
                    batchCalls := st.batchCalls + 1 }

/-- A workbook: its sheets in `xls.sheet_names` order. -/
structure Workbook where
  sheets : List (String × DataFrame)
  deriving DecidableEq, Repr

/-- ImportService._process_excel_file (Gui.py lines 684-783): process every
allowed sheet in order. -/
def process_excel_file (sp : SheetProcessor) (batchSize : Nat)
    (oracle : Value → List (String × Value) → Bool) (wb : Workbook)
    (existingTags : List String) (store : DataFrame) (dryRun : Bool) : RunState :=
  (wb.sheets.filter (fun s => sp.config.allowed_sheets.contains s.1)).foldl
    (processOneSheet sp existingTags batchSize oracle dryRun)
    ⟨[], [], 0, 0, store, 0⟩

/-- Environment of one run: the outcomes of the fallible steps that precede
sheet processing (configuration load, connection, metadata and tag queries,
workbook open) and the statement-failure oracle of the update path. -/
structure RunEnv where
  processingConfig : Except String ProcessingConfig
  connectOk : Bool
  metadataOk : Bool
  tagsOk : Bool
  workbook : Except String Workbook
  oracle : Value → List (String × Value) → Bool

/-- The run-level failure result of run_import. -/
def failureResult (msg : String) : ImportResult :=
  ⟨false, [], 0, 0, [], none, some msg⟩

/-- Aggregation of a completed sheet pass into the final run result (the
tail of ImportService._process_excel_file together with run_import's return):
`success = true`, the per-sheet outcomes, the totals, the validation errors
and the report path when errors exist. -/
def runOutcome (st : RunState) : ImportResult × DataFrame × Nat :=
  (⟨true, st.sheetResults, st.totalDetected, st.totalCommitted, st.allErrors,
    if st.allErrors.isEmpty then none else some "ImportErrors report", none⟩,
   st.store, st.batchCalls)

/-- ImportService.run_import (Gui.py lines 565-682): load config, connect,
introspect, fetch tags, then process the workbook; run-fatal failures yield
`success = false` with a message, otherwise the aggregated result reports
`success = true`.  The returned triple is (result, final store state, number
of batch-update invocations). -/
def run_import (tagCol : String) (threshold : ℚ) (batchSize : Nat) (env : RunEnv)
    (numericCols : List String) (store : DataFrame) (dryRun : Bool) :
    ImportResult × DataFrame × Nat :=
  match env.processingConfig with
  | .error e => (failureResult ("Configuration Error: " ++ e), store, 0)
  | .ok cfg =>
    match env.connectOk with
    | false => (failureResult "Database Error: connection failed", store, 0)
    | true =>
      match env.metadataOk with
      | false => (failureResult "Database Error: metadata query failed", store, 0)
      | true =>
        match env.tagsOk with
        | false => (failureResult "Database Error: tag query failed", store, 0)
        | true =>
          match env.workbook with
          | .error e => (failureResult ("Unexpected Error: " ++ e), store, 0)
          | .ok wb =>
            runOutcome (process_excel_file
              ⟨cfg, store.columns, ⟨numericCols, threshold⟩, tagCol⟩
              batchSize env.oracle wb (get_existing_tags tagCol store) store dryRun)

/-! Basic facts about value equality and comparison. -/

theorem pyEq_iff_interp (a b : Value) : pyEq a b = true ↔ interp a = interp b := by
  cases a <;> cases b <;> simp [pyEq, interp, Int.cast_inj]

theorem pyEq_refl (a : Value) : pyEq a a = true := by
  rw [pyEq_iff_interp]

theorem pyEq_symm (a b : Value) : pyEq a b = pyEq b a := by
  by_cases h : interp a = interp b
  · rw [(pyEq_iff_interp a b).mpr h, (pyEq_iff_interp b a).mpr h.symm]
  · have h1 : pyEq a b ≠ true := fun hc => h ((pyEq_iff_interp a b).mp hc)
    have h2 : pyEq b a ≠ true := fun hc => h (((pyEq_iff_interp b a).mp hc).symm)
    simp only [Bool.not_eq_true] at h1 h2
    rw [h1, h2]

theorem pyEq_trans {a b c : Value} (h1 : pyEq a b = true) (h2 : pyEq b c = true) :
    pyEq a c = true :=
  (pyEq_iff_interp a c).mpr (((pyEq_iff_interp a b).mp h1).trans ((pyEq_iff_interp b c).mp h2))

theorem compare_values_null (v : DataValidator) (y : Value) :
    compare_values v Value.null y = false := by
  simp [compare_values]

theorem compare_values_true_ne_null {v : DataValidator} {x y : Value}
    (h : compare_values v x y = true) : x ≠ Value.null := by
  intro hx
  rw [hx, compare_values_null] at h
  exact Bool.false_ne_true h

theorem compare_values_self (v : DataValidator) (h : 0 ≤ v.float_threshold) (x : Value) :
    compare_values v x x = false := by
  cases x <;> simp [compare_values, pyEq_refl]
  case float q => exact h

theorem compare_values_true_not_pyEq {v : DataValidator} {x y : Value}
    (h0 : 0 ≤ v.float_threshold) (h : compare_values v x y = true) :
    pyEq x y = false := by
  by_contra hne
  have hpe : pyEq x y = true := by
    cases hb : pyEq x y
    · exact absurd hb hne
    · rfl
  have hin : interp x = interp y := (pyEq_iff_interp x y).mp hpe
  cases x <;> cases y <;> simp [interp] at hin <;>
    simp [compare_values, pyEq, hin] at h
  case float.float a b =>
    exact absurd h (not_lt.mpr h0)

/-! Facts about column indices, row access and row update. -/

theorem colIndex_lt {cols : List String} {c : String} {i : Nat}
    (h : colIndex cols c = some i) : i < cols.length := by
  induction cols generalizing i with
  | nil => simp [colIndex] at h
  | cons a rest ih =>
    by_cases ha : a = c
    · simp [colIndex, ha] at h
      simp only [List.length_cons]
      omega
    · simp [colIndex, ha] at h
      obtain ⟨j, hj, rfl⟩ := h
      have := ih hj
      simp only [List.length_cons]
      omega

theorem colIndex_getD {cols : List String} {c : String} {i : Nat}
    (h : colIndex cols c = some i) : cols.getD i "" = c := by
  induction cols generalizing i with
  | nil => simp [colIndex] at h
  | cons a rest ih =>
    by_cases ha : a = c
    · simp [colIndex, ha] at h
      simp [← h, ha]
    · simp [colIndex, ha] at h
      obtain ⟨j, hj, rfl⟩ := h
      simpa using ih hj

theorem colIndex_inj {cols : List String} {c t : String} {i j : Nat}
    (hc : colIndex cols c = some i) (ht : colIndex cols t = some j)
    (hne : c ≠ t) : i ≠ j := by
  intro hij
  apply hne
  rw [← colIndex_getD hc, hij, colIndex_getD ht]

theorem colIndex_isSome_of_mem {cols : List String} {c : String}
    (h : c ∈ cols) : (colIndex cols c).isSome := by
  induction cols with
  | nil => simp at h
  | cons a rest ih =>
    by_cases ha : a = c
    · simp [colIndex, ha]
    · have h2 : c ∈ rest := by
        rcases List.mem_cons.mp h with h1 | h1
        · exact absurd h1.symm ha
        · exact h1
      have h3 := ih h2
      simp only [colIndex, if_neg ha]
      cases hr : colIndex rest c with
      | none => rw [hr] at h3; simp at h3
      | some j => simp

theorem getD_set_ne {r : List Value} {i j : Nat} (hij : i ≠ j) (v d : Value) :
    (r.set i v).getD j d = r.getD j d := by
  induction r generalizing i j with
  | nil => simp
  | cons a rest ih =>
    cases i with
    | zero =>
      cases j with
      | zero => exact absurd rfl hij
      | succ j2 => simp [List.set, List.getD]
    | succ i2 =>
      cases j with
      | zero => simp [List.set, List.getD]
      | succ j2 =>
        simp only [List.set, List.getD_cons_succ]
        exact ih (fun hc => hij (by rw [hc]))

theorem rowGetD_set_of_ne {cols : List String} {r : List Value} {c t : String}
    {i : Nat} (hi : colIndex cols c = some i) (hne : c ≠ t) (v : Value) :
    rowGetD cols (r.set i v) t = rowGetD cols r t := by
  unfold rowGetD
  cases ht : colIndex cols t with
  | none => rfl
  | some j =>
    exact getD_set_ne (colIndex_inj hi ht hne) v Value.null

theorem applyChangesToRow_rowGetD_of_notMem {cols : List String}
    {changes : List (String × Value)} {t : String}
    (h : ∀ p ∈ changes, p.1 ≠ t) (r : List Value) :
    rowGetD cols (applyChangesToRow cols changes r) t = rowGetD cols r t := by
  induction changes generalizing r with
  | nil => rfl
  | cons p rest ih =>
    have hp : p.1 ≠ t := h p (List.mem_cons_self p rest)
    have hrest : ∀ q ∈ rest, q.1 ≠ t := fun q hq => h q (List.mem_cons_of_mem p hq)
    unfold applyChangesToRow
    simp only [List.foldl_cons]
    cases hc : colIndex cols p.1 with
    | none =>
      exact ih hrest r
    | some i =>
      rw [show (List.foldl _ (r.set i p.2) rest) =
        applyChangesToRow cols rest (r.set i p.2) from rfl] at *
      rw [ih hrest (r.set i p.2)]
      exact rowGetD_set_of_ne hc hp p.2

/-- Decidable equality of Except results, used to evaluate the embedded
operations at concrete inputs. -/
instance exceptDecEq {ε α : Type} [DecidableEq ε] [DecidableEq α] :
    DecidableEq (Except ε α) := fun a b =>
  match a, b with
  | .error x, .error y =>
    if h : x = y then isTrue (by rw [h]) else isFalse (fun hc => h (by injection hc))
  | .error _, .ok _ => isFalse (fun hc => Except.noConfusion hc)
  | .ok _, .error _ => isFalse (fun hc => Except.noConfusion hc)
  | .ok x, .ok y =>
    if h : x = y then isTrue (by rw [h]) else isFalse (fun hc => h (by injection hc))

/-- Instance-search depth workaround: the nested product instances written
out explicitly. -/
instance : DecidableEq (SheetResult × List Changeset × List VError) :=
  instDecidableEqProd

/-- Instance-search depth workaround for run results. -/
instance : DecidableEq (ImportResult × DataFrame × Nat) :=
  instDecidableEqProd

/-! Claim C4: value-difference semantics of compare_values. -/

/-- The validator with the default 1e-6 tolerance and no numeric columns. -/
def defaultValidator : DataValidator := ⟨[], 1/1000000⟩

/-- C4 counterexample: the claim states that every pair of present NUMERIC
values is compared with the tolerance, but compare_values applies the
tolerance only when both operands are floats.  The numeric pair
(float 1.0000001, int 1) is within the default tolerance yet is reported as a
difference. -/
theorem C4_counterexample :
    compare_values defaultValidator (Value.float (10000001/10000000)) (Value.int 1) = true ∧
    |(10000001/10000000 : ℚ) - (1 : ℚ)| ≤ 1/1000000 := by
  constructor
  · show (!(pyEq (Value.float (10000001/10000000)) (Value.int 1))) = true
    simp [pyEq]
    norm_num
  · rw [show |(10000001/10000000 : ℚ) - (1 : ℚ)| = 1/10000000 by norm_num [abs_of_nonneg]]
    norm_num

/-- C4 (amended): the tolerance rule applies exactly to float-float pairs:
such a pair differs iff `|a - b| > tolerance`; every other pair with a
present (non-null) source value differs iff the values are Python-unequal
(ints and floats comparing numerically across kinds).  In particular the
float pair 1.0000001 / 1.0000002 at tolerance 1e-6 is not a difference while
the float pair 1.0 / 1.1 is. -/
theorem C4_float_tolerance (v : DataValidator) :
    (∀ a b : ℚ, compare_values v (Value.float a) (Value.float b) =
       decide (|a - b| > v.float_threshold)) ∧
    (∀ x y : Value, x ≠ Value.null →
       (∀ a b : ℚ, ¬(x = Value.float a ∧ y = Value.float b)) →
       compare_values v x y = !(pyEq x y)) ∧
    compare_values defaultValidator (Value.float (10000001/10000000))
      (Value.float (10000002/10000000)) = false ∧
    compare_values defaultValidator (Value.float 1) (Value.float (11/10)) = true := by
  refine ⟨fun a b => rfl, ?_, ?_, ?_⟩
  case refine_2 =>
    show decide (|(10000001/10000000 : ℚ) - 10000002/10000000| > (1 : ℚ)/1000000) = false
    have he : (10000001/10000000 : ℚ) - 10000002/10000000 = -(1/10000000) := by norm_num
    rw [decide_eq_false_iff_not, he, abs_neg, abs_of_nonneg (by norm_num)]
    norm_num
  case refine_3 =>
    show decide (|(1 : ℚ) - 11/10| > (1 : ℚ)/1000000) = true
    have he : (1 : ℚ) - 11/10 = -(1/10) := by norm_num
    rw [decide_eq_true_eq, he, abs_neg, abs_of_nonneg (by norm_num)]
    norm_num
  intro x y hx hfl
  cases x with
  | null => exact absurd rfl hx
  | str s => cases y <;> rfl
  | int n => cases y <;> rfl
  | float q =>
    cases y with
    | null => rfl
    | str s => rfl
    | int n => rfl
    | float b => exact absurd ⟨rfl, rfl⟩ (hfl q b)

/-- Witness for C4_float_tolerance: the non-float branch at a concrete int
pair. -/
theorem C4_float_tolerance_witness :
    compare_values defaultValidator (Value.int 0) (Value.int 1) =
      !(pyEq (Value.int 0) (Value.int 1)) :=
  (C4_float_tolerance defaultValidator).2.1 (Value.int 0) (Value.int 1)
    (by decide) (fun a b h => Value.noConfusion h.1)

/-! Claim C10: changesets are never empty, and the applier skips empty ones. -/

/-- Inversion of the row loop of _identify_updates on a cons of rows. -/
theorem identifyUpdatesAux_cons {v : DataValidator} {tagCol : String}
    {excelDf sqlDf : DataFrame} {cols : List String} {erow : List Value}
    {rest : List (List Value)} {ups : List Changeset}
    (h : identifyUpdatesAux v tagCol excelDf sqlDf cols (erow :: rest) = .ok ups) :
    ∃ tag, lookupCell excelDf erow tagCol = .ok tag ∧
      sqlDf.columns.contains tagCol = true ∧
      ((sqlDf.rows.filter (fun r => pyEq (rowGetD sqlDf.columns r tagCol) tag) = [] ∧
        identifyUpdatesAux v tagCol excelDf sqlDf cols rest = .ok ups) ∨
       (∃ srow tl changes more,
          sqlDf.rows.filter (fun r => pyEq (rowGetD sqlDf.columns r tagCol) tag) =
            srow :: tl ∧
          buildChanges v excelDf sqlDf erow srow cols = .ok changes ∧
          identifyUpdatesAux v tagCol excelDf sqlDf cols rest = .ok more ∧
          ((changes = [] ∧ ups = more) ∨
           (changes ≠ [] ∧ ups = (tag, changes) :: more)))) := by
  rw [identifyUpdatesAux] at h
  cases hl : lookupCell excelDf erow tagCol with
  | error e => rw [hl] at h; cases h
  | ok tag =>
    rw [hl] at h
    dsimp only at h
    refine ⟨tag, rfl, ?_⟩
    by_cases hc : sqlDf.columns.contains tagCol
    · rw [if_pos hc] at h
      refine ⟨hc, ?_⟩
      cases hm : sqlDf.rows.filter (fun r => pyEq (rowGetD sqlDf.columns r tagCol) tag) with
      | nil =>
        rw [hm] at h
        exact Or.inl ⟨rfl, h⟩
      | cons srow tl =>
        rw [hm] at h
        dsimp only at h
        cases hbc : buildChanges v excelDf sqlDf erow srow cols with
        | error e => rw [hbc] at h; cases h
        | ok changes =>
          rw [hbc] at h
          dsimp only at h
          cases hmore : identifyUpdatesAux v tagCol excelDf sqlDf cols rest with
          | error e => rw [hmore] at h; cases h
          | ok more =>
            rw [hmore] at h
            dsimp only at h
            by_cases hch : changes.isEmpty
            · rw [if_pos hch] at h
              cases h
              exact Or.inr ⟨srow, tl, changes, ups, rfl, hbc, rfl,
                Or.inl ⟨List.isEmpty_iff.mp hch, rfl⟩⟩
            · rw [if_neg hch] at h
              cases h
              exact Or.inr ⟨srow, tl, changes, more, rfl, hbc, rfl,
                Or.inr ⟨fun hc2 => hch (by rw [hc2]; rfl), rfl⟩⟩
    · rw [if_neg hc] at h
      cases h

theorem identifyUpdatesAux_changes_nonempty {v : DataValidator} {tagCol : String}
    {excelDf sqlDf : DataFrame} {cols : List String} :
    ∀ {rs : List (List Value)} {ups : List Changeset},
      identifyUpdatesAux v tagCol excelDf sqlDf cols rs = .ok ups →
      ∀ u ∈ ups, u.2 ≠ [] := by
  intro rs
  induction rs with
  | nil =>
    intro ups h u hu
    rw [identifyUpdatesAux] at h
    cases h
    simp at hu
  | cons erow rest ih =>
    intro ups h u hu
    obtain ⟨tag, -, -, hcase⟩ := identifyUpdatesAux_cons h
    rcases hcase with ⟨-, hrest⟩ | ⟨srow, tl, changes, more, -, -, hmore, hend⟩
    · exact ih hrest u hu
    · rcases hend with ⟨-, rfl⟩ | ⟨hne, rfl⟩
      · exact ih hmore u hu
      · rcases List.mem_cons.mp hu with h1 | h1
        · rw [h1]
          exact hne
        · exact ih hmore u h1

theorem batchUpdateAux_skips_empty (tagCol : String)
    (oracle : Value → List (String × Value) → Bool) :
    ∀ (updates : List Changeset) (cur : DataFrame) (count : Nat),
      batchUpdateAux tagCol oracle cur count updates =
      batchUpdateAux tagCol oracle cur count (updates.filter (fun u => !u.2.isEmpty)) := by
  intro updates
  induction updates with
  | nil => intro cur count; rfl
  | cons u rest ih =>
    intro cur count
    rw [List.filter_cons]
    by_cases he : u.2.isEmpty
    · rw [if_neg (by simp [he])]
      rw [batchUpdateAux, if_pos he]
      exact ih cur count
    · rw [if_pos (by simp [he])]
      rw [batchUpdateAux, if_neg he, batchUpdateAux, if_neg he]
      by_cases ho : oracle u.1 u.2
      · rw [if_pos ho, if_pos ho]
      · rw [if_neg ho, if_neg ho]
        exact ih _ _

/-- C10: every changeset emitted by the diff carries at least one differing
field (an empty field mapping is never added to the update list), and
batch_update_records behaves identically when changesets with no fields are
dropped (the applier skips them). -/
theorem C10_changeset_nonempty (v : DataValidator) (tagCol : String)
    (excelDf sqlDf : DataFrame) (cols : List String) (ups : List Changeset)
    (h : identify_updates v tagCol excelDf sqlDf cols = .ok ups) :
    (∀ u ∈ ups, u.2 ≠ []) ∧
    ∀ (oracle : Value → List (String × Value) → Bool) (store : DataFrame)
      (updates : List Changeset),
      batch_update_records tagCol oracle store updates =
      batch_update_records tagCol oracle store (updates.filter (fun u => !u.2.isEmpty)) := by
  constructor
  · exact identifyUpdatesAux_changes_nonempty h
  · intro oracle store updates
    unfold batch_update_records
    rw [← batchUpdateAux_skips_empty]

/-- Witness for C10 at a concrete diff: the single emitted changeset has a
non-empty field list. -/
theorem C10_changeset_nonempty_witness :
    ((Value.str "T", [("c", Value.int 1)]) : Changeset).2 ≠ [] :=
  (C10_changeset_nonempty defaultValidator "k"
    ⟨["k", "c"], [[Value.str "T", Value.int 1]]⟩
    ⟨["k", "c"], [[Value.str "T", Value.int 0]]⟩
    ["c"] [(Value.str "T", [("c", Value.int 1)])] (by decide)).1
    (Value.str "T", [("c", Value.int 1)]) (List.mem_singleton.mpr rfl)

/-! Claim C6: transactional semantics of batch_update_records. -/

theorem applyOneUpdate_row_tag {tagCol : String} {cols : List String} {tag : Value}
    {changes : List (String × Value)} (h : ∀ p ∈ changes, p.1 ≠ tagCol)
    (r : List Value) :
    rowGetD cols (if pyEq (rowGetD cols r tagCol) tag then
      applyChangesToRow cols changes r else r) tagCol = rowGetD cols r tagCol := by
  split
  · exact applyChangesToRow_rowGetD_of_notMem h r
  · rfl

theorem applyOneUpdate_filter_length {tagCol : String} {cur : DataFrame}
    {tag : Value} {changes : List (String × Value)}
    (h : ∀ p ∈ changes, p.1 ≠ tagCol) (t : Value) :
    ((applyOneUpdate tagCol cur tag changes).1.rows.filter
      (fun r => pyEq (rowGetD (applyOneUpdate tagCol cur tag changes).1.columns r tagCol) t)).length =
    (cur.rows.filter (fun r => pyEq (rowGetD cur.columns r tagCol) t)).length := by
  show ((cur.rows.map (fun r => if pyEq (rowGetD cur.columns r tagCol) tag then
      applyChangesToRow cur.columns changes r else r)).filter
      (fun r => pyEq (rowGetD cur.columns r tagCol) t)).length =
    (cur.rows.filter (fun r => pyEq (rowGetD cur.columns r tagCol) t)).length
  rw [← List.countP_eq_length_filter, ← List.countP_eq_length_filter, List.countP_map]
  apply List.countP_congr
  intro r _
  simp only [Function.comp_apply]
  rw [applyOneUpdate_row_tag h r]

theorem batchUpdateAux_error_iff (tagCol : String)
    (oracle : Value → List (String × Value) → Bool) :
    ∀ (updates : List Changeset) (cur : DataFrame) (count : Nat),
      ((∃ e, batchUpdateAux tagCol oracle cur count updates = .error e) ↔
       ∃ u ∈ updates, u.2 ≠ [] ∧ oracle u.1 u.2 = true) := by
  intro updates
  induction updates with
  | nil =>
    intro cur count
    constructor
    · rintro ⟨e, he⟩
      rw [batchUpdateAux] at he
      cases he
    · rintro ⟨u, hu, -⟩
      simp at hu
  | cons u rest ih =>
    intro cur count
    by_cases he : u.2.isEmpty
    · rw [show batchUpdateAux tagCol oracle cur count (u :: rest) =
        batchUpdateAux tagCol oracle cur count rest from by
          rw [batchUpdateAux, if_pos he]]
      rw [ih]
      constructor
      · rintro ⟨x, hx, hx2⟩
        exact ⟨x, List.mem_cons_of_mem u hx, hx2⟩
      · rintro ⟨x, hx, hx2⟩
        rcases List.mem_cons.mp hx with h1 | h1
        · exact absurd (h1 ▸ List.isEmpty_iff.mp he) hx2.1
        · exact ⟨x, h1, hx2⟩
    · by_cases ho : oracle u.1 u.2
      · rw [show batchUpdateAux tagCol oracle cur count (u :: rest) =
          .error "QueryError: Failed to update records" from by
            rw [batchUpdateAux, if_neg he, if_pos ho]]
        constructor
        · intro _
          exact ⟨u, List.mem_cons_self u rest, fun hc => he (by rw [hc]; rfl), ho⟩
        · intro _
          exact ⟨_, rfl⟩
      · rw [show batchUpdateAux tagCol oracle cur count (u :: rest) =
          batchUpdateAux tagCol oracle (applyOneUpdate tagCol cur u.1 u.2).1
            (count + (applyOneUpdate tagCol cur u.1 u.2).2) rest from by
            rw [batchUpdateAux, if_neg he, if_neg ho]]
        rw [ih]
        constructor
        · rintro ⟨x, hx, hx2⟩
          exact ⟨x, List.mem_cons_of_mem u hx, hx2⟩
        · rintro ⟨x, hx, hx2⟩
          rcases List.mem_cons.mp hx with h1 | h1
          · exact absurd (h1 ▸ hx2.2) (by simp [ho])
          · exact ⟨x, h1, hx2⟩

theorem batchUpdateAux_ok_count (tagCol : String)
    (oracle : Value → List (String × Value) → Bool) :
    ∀ (updates : List Changeset) (cur : DataFrame) (count : Nat),
      (∀ u ∈ updates, oracle u.1 u.2 = false) →
      (∀ u ∈ updates, ∀ p ∈ u.2, p.1 ≠ tagCol) →
      ∃ final, batchUpdateAux tagCol oracle cur count updates =
        .ok (final, count + ((updates.filter (fun u => !u.2.isEmpty)).map (fun u =>
          (cur.rows.filter (fun r => pyEq (rowGetD cur.columns r tagCol) u.1)).length)).sum) := by
  intro updates
  induction updates with
  | nil =>
    intro cur count _ _
    exact ⟨cur, by rw [batchUpdateAux]; simp⟩
  | cons u rest ih =>
    intro cur count hfail hch
    have hrest1 : ∀ x ∈ rest, oracle x.1 x.2 = false :=
      fun x hx => hfail x (List.mem_cons_of_mem u hx)
    have hrest2 : ∀ x ∈ rest, ∀ p ∈ x.2, p.1 ≠ tagCol :=
      fun x hx => hch x (List.mem_cons_of_mem u hx)
    by_cases he : u.2.isEmpty
    · obtain ⟨final, hfin⟩ := ih cur count hrest1 hrest2
      refine ⟨final, ?_⟩
      rw [batchUpdateAux, if_pos he, hfin, List.filter_cons, if_neg (by simp [he])]
    · have ho : oracle u.1 u.2 = false := hfail u (List.mem_cons_self u rest)
      obtain ⟨final, hfin⟩ := ih (applyOneUpdate tagCol cur u.1 u.2).1
        (count + (applyOneUpdate tagCol cur u.1 u.2).2) hrest1 hrest2
      refine ⟨final, ?_⟩
      rw [batchUpdateAux, if_neg he, if_neg (by simp [ho]), hfin]
      have hmap : (rest.filter (fun x => !x.2.isEmpty)).map (fun x =>
          ((applyOneUpdate tagCol cur u.1 u.2).1.rows.filter (fun r =>
            pyEq (rowGetD (applyOneUpdate tagCol cur u.1 u.2).1.columns r tagCol) x.1)).length) =
        (rest.filter (fun x => !x.2.isEmpty)).map (fun x =>
          (cur.rows.filter (fun r => pyEq (rowGetD cur.columns r tagCol) x.1)).length) := by
        apply List.map_congr_left
        intro x _
        exact applyOneUpdate_filter_length (hch u (List.mem_cons_self u rest)) x.1
      rw [hmap, List.filter_cons, if_pos (by simp [he]), List.map_cons, List.sum_cons]
      have haff : (applyOneUpdate tagCol cur u.1 u.2).2 =
        (cur.rows.filter (fun r => pyEq (rowGetD cur.columns r tagCol) u.1)).length := rfl
      rw [haff]
      congr 2
      omega

/-- C6: batch_update_records is transactional.  (1) Whenever it reports
QueryError the returned store is the original one — the rollback leaves no
partial commit.  (2) It reports QueryError exactly when some changeset with a
non-empty field mapping fails to execute.  (3) When no statement fails it
commits and returns the total number of rows actually affected: the sum, over
the non-empty changesets, of the number of store rows matching that
changeset's key — a key that matches zero store rows contributes zero and is
not an error.  (The count hypothesis that no changeset rewrites the key
column itself always holds for changesets produced by the diff.) -/
theorem C6_batch_update_atomic (tagCol : String)
    (oracle : Value → List (String × Value) → Bool) (store : DataFrame)
    (updates : List Changeset) :
    (∀ e, (batch_update_records tagCol oracle store updates).2 = .error e →
       (batch_update_records tagCol oracle store updates).1 = store) ∧
    ((∃ e, (batch_update_records tagCol oracle store updates).2 = .error e) ↔
       ∃ u ∈ updates, u.2 ≠ [] ∧ oracle u.1 u.2 = true) ∧
    ((∀ u ∈ updates, oracle u.1 u.2 = false) →
     (∀ u ∈ updates, ∀ p ∈ u.2, p.1 ≠ tagCol) →
     (batch_update_records tagCol oracle store updates).2 =
       .ok (((updates.filter (fun u => !u.2.isEmpty)).map (fun u =>
         (store.rows.filter (fun r => pyEq (rowGetD store.columns r tagCol) u.1)).length)).sum)) := by
  have hcases : (∃ p, batchUpdateAux tagCol oracle store 0 updates = .ok p ∧
      batch_update_records tagCol oracle store updates = (p.1, .ok p.2)) ∨
      (∃ e, batchUpdateAux tagCol oracle store 0 updates = .error e ∧
        batch_update_records tagCol oracle store updates = (store, .error e)) := by
    unfold batch_update_records
    cases hx : batchUpdateAux tagCol oracle store 0 updates with
    | ok p => exact Or.inl ⟨p, rfl, rfl⟩
    | error e => exact Or.inr ⟨e, rfl, rfl⟩
  refine ⟨?_, ?_, ?_⟩
  · intro e he
    rcases hcases with ⟨p, -, hb⟩ | ⟨e2, -, hb⟩
    · rw [hb] at he
      cases he
    · rw [hb]
  · rw [← batchUpdateAux_error_iff tagCol oracle updates store 0]
    constructor
    · rintro ⟨e, he⟩
      rcases hcases with ⟨p, -, hb⟩ | ⟨e2, ha, -⟩
      · rw [hb] at he
        cases he
      · exact ⟨e2, ha⟩
    · rintro ⟨e, he⟩
      rcases hcases with ⟨p, ha, -⟩ | ⟨e2, -, hb⟩
      · rw [ha] at he
        cases he
      · exact ⟨e2, by rw [hb]⟩
  · intro h1 h2
    obtain ⟨final, hfin⟩ := batchUpdateAux_ok_count tagCol oracle updates store 0 h1 h2
    rcases hcases with ⟨p, ha, hb⟩ | ⟨e2, ha, -⟩
    · rw [ha] at hfin
      cases hfin
      rw [hb]
      simp
    · rw [ha] at hfin
      cases hfin

/-- Witness for C6: two changesets, one matching a single store row and one
whose key matches nothing; no failure, so the commit reports one affected
row. -/
theorem C6_batch_update_atomic_witness :
    (batch_update_records "k" (fun _ _ => false)
      ⟨["k", "c"], [[Value.str "T", Value.int 0]]⟩
      [(Value.str "T", [("c", Value.int 5)]),
       (Value.str "missing", [("c", Value.int 7)])]).2 = .ok 1 := by
  rw [(C6_batch_update_atomic "k" (fun _ _ => false)
      ⟨["k", "c"], [[Value.str "T", Value.int 0]]⟩
      [(Value.str "T", [("c", Value.int 5)]),
       (Value.str "missing", [("c", Value.int 7)])]).2.2
    (fun u _ => rfl) (by decide)]
  rfl

/-! Shared inversion and membership lemmas for the sheet pipeline. -/

theorem contains_iff_mem {l : List String} {a : String} : l.contains a = true ↔ a ∈ l := by
  simp [List.contains, List.elem_iff]

theorem getD_mem_or_null : ∀ (r : List Value) (i : Nat),
    r.getD i Value.null ∈ r ∨ r.getD i Value.null = Value.null := by
  intro r
  induction r with
  | nil => intro i; right; cases i <;> rfl
  | cons a rest ih =>
    intro i
    cases i with
    | zero => left; simp [List.getD_cons_zero]
    | succ j =>
      rw [List.getD_cons_succ]
      rcases ih j with h | h
      · exact Or.inl (List.mem_cons_of_mem a h)
      · exact Or.inr h

theorem colIndex_mem {cols : List String} {c : String} {i : Nat}
    (h : colIndex cols c = some i) : c ∈ cols := by
  have hlt := colIndex_lt h
  have hget := colIndex_getD h
  rw [List.getD_eq_getElem?_getD, List.getElem?_eq_getElem hlt] at hget
  rw [← hget]
  exact List.getElem_mem hlt

theorem lookupCell_ok_mem {df : DataFrame} {r : List Value} {c : String} {x : Value}
    (h : lookupCell df r c = .ok x) : x ∈ r ∨ x = Value.null := by
  unfold lookupCell at h
  cases hc : colIndex df.columns c with
  | none => rw [hc] at h; cases h
  | some i =>
    rw [hc] at h
    cases h
    exact getD_mem_or_null r i

theorem lookupCell_ok_contains {df : DataFrame} {r : List Value} {c : String} {x : Value}
    (h : lookupCell df r c = .ok x) : c ∈ df.columns := by
  unfold lookupCell at h
  cases hc : colIndex df.columns c with
  | none => rw [hc] at h; cases h
  | some i => exact colIndex_mem hc

/-- Inversion of the per-column loop of _identify_updates on a cons of the
columns to check. -/
theorem buildChanges_cons {v : DataValidator} {excelDf sqlDf : DataFrame}
    {erow srow : List Value} {c : String} {cs : List String}
    {changes : List (String × Value)}
    (h : buildChanges v excelDf sqlDf erow srow (c :: cs) = .ok changes) :
    ∃ ev sv rest, lookupCell excelDf erow c = .ok ev ∧
      lookupCell sqlDf srow c = .ok sv ∧
      buildChanges v excelDf sqlDf erow srow cs = .ok rest ∧
      ((compare_values v ev sv = true ∧ changes = (c, ev) :: rest) ∨
       (compare_values v ev sv = false ∧ changes = rest)) := by
  rw [buildChanges] at h
  cases hev : lookupCell excelDf erow c with
  | error e => rw [hev] at h; cases h
  | ok ev =>
    rw [hev] at h
    dsimp only at h
    cases hsv : lookupCell sqlDf srow c with
    | error e => rw [hsv] at h; cases h
    | ok sv =>
      rw [hsv] at h
      dsimp only at h
      cases hrest : buildChanges v excelDf sqlDf erow srow cs with
      | error e => rw [hrest] at h; cases h
      | ok rest =>
        rw [hrest] at h
        dsimp only at h
        by_cases hcmp : compare_values v ev sv
        · rw [if_pos hcmp] at h
          cases h
          exact ⟨ev, sv, rest, rfl, rfl, rfl, Or.inl ⟨hcmp, rfl⟩⟩
        · rw [if_neg hcmp] at h
          cases h
          exact ⟨ev, sv, changes, rfl, rfl, rfl,
            Or.inr ⟨Bool.not_eq_true _ ▸ hcmp, rfl⟩⟩

/-- Every emitted field of a per-row diff: its column is among the checked
columns, its value is the Excel cell value and it compared as different
against the matched SQL cell. -/
theorem buildChanges_mem {v : DataValidator} {excelDf sqlDf : DataFrame}
    {erow srow : List Value} :
    ∀ {cols : List String} {changes : List (String × Value)},
      buildChanges v excelDf sqlDf erow srow cols = .ok changes →
      ∀ p ∈ changes, p.1 ∈ cols ∧ lookupCell excelDf erow p.1 = .ok p.2 ∧
        ∃ sv, lookupCell sqlDf srow p.1 = .ok sv ∧ compare_values v p.2 sv = true := by
  intro cols
  induction cols with
  | nil =>
    intro changes h p hp
    rw [buildChanges] at h
    cases h
    simp at hp
  | cons c cs ih =>
    intro changes h p hp
    obtain ⟨ev, sv, rest, hev, hsv, hrest, hcase⟩ := buildChanges_cons h
    rcases hcase with ⟨hcmp, rfl⟩ | ⟨-, rfl⟩
    · rcases List.mem_cons.mp hp with h1 | h1
      · rw [h1]
        exact ⟨List.mem_cons_self c cs, hev, sv, hsv, hcmp⟩
      · obtain ⟨hm, hl, hrest2⟩ := ih hrest p h1
        exact ⟨List.mem_cons_of_mem c hm, hl, hrest2⟩
    · obtain ⟨hm, hl, hrest2⟩ := ih hrest p hp
      exact ⟨List.mem_cons_of_mem c hm, hl, hrest2⟩

/-- Inversion of process_sheet's success: either a SKIP branch with no
changesets, or the full pipeline ran and the changesets come from
_identify_updates on the validated, cleaned, selected frame. -/
theorem process_sheet_ok {sp : SheetProcessor} {sheetName : String}
    {raw : DataFrame} {existingTags : List String} {sqlData : DataFrame}
    {res : SheetResult} {ups : List Changeset} {errs : List VError}
    (h : process_sheet sp sheetName raw existingTags sqlData = .ok (res, ups, errs)) :
    (ups = [] ∧ errs = []) ∨
    (identify_updates sp.validator sp.tag_column
       (clean_dataframe (validateNumericColumns sp.validator sheetName sp.tag_column
         (selectedDf sp raw existingTags)).1) sqlData (validColumns sp raw) = .ok ups ∧
     errs = (validateNumericColumns sp.validator sheetName sp.tag_column
       (selectedDf sp raw existingTags)).2) := by
  unfold process_sheet at h
  split at h
  · cases h
    exact Or.inl ⟨rfl, rfl⟩
  · split at h
    · cases h
      exact Or.inl ⟨rfl, rfl⟩
    · split at h
      · cases h
      · rename_i updates hid
        cases h
        exact Or.inr ⟨hid, rfl⟩

theorem mem_validColumns {sp : SheetProcessor} {raw : DataFrame} {c : String} :
    c ∈ validColumns sp raw ↔
      c ∈ mappedColumns sp raw ∧ c ∈ sp.sql_columns ∧
        c ∉ sp.config.ignored_headers := by
  unfold validColumns
  rw [List.mem_filter]
  constructor
  · rintro ⟨h1, h2⟩
    rw [Bool.and_eq_true, Bool.not_eq_true'] at h2
    refine ⟨h1, contains_iff_mem.mp h2.1, fun hc => ?_⟩
    rw [contains_iff_mem.mpr hc] at h2
    simp at h2
  · rintro ⟨h1, h2, h3⟩
    refine ⟨h1, ?_⟩
    rw [Bool.and_eq_true, Bool.not_eq_true']
    refine ⟨contains_iff_mem.mpr h2, ?_⟩
    cases hc : sp.config.ignored_headers.contains c
    · rfl
    · exact absurd (contains_iff_mem.mp hc) h3

/-! Claim C5: null and blank source cells never produce changeset entries;
whitespace-only cells are only nulled by numeric coercion. -/

theorem cleanValue_ne_empty (x : Value) : cleanValue x ≠ Value.str "" := by
  cases x with
  | str s =>
    show (if s = "" then Value.null else Value.str s) ≠ Value.str ""
    split
    · simp
    · rename_i hs
      intro hc
      injection hc with hc2
      exact hs hc2
  | null => simp [cleanValue]
  | int n => simp [cleanValue]
  | float q => simp [cleanValue]

theorem clean_dataframe_no_empty {df : DataFrame} :
    ∀ r ∈ (clean_dataframe df).rows, ∀ x ∈ r, x ≠ Value.str "" := by
  intro r hr x hx
  unfold clean_dataframe at hr
  simp only [List.mem_map] at hr
  obtain ⟨r0, -, rfl⟩ := hr
  simp only [List.mem_map] at hx
  obtain ⟨y, -, rfl⟩ := hx
  exact cleanValue_ne_empty y

theorem identifyUpdatesAux_values {v : DataValidator} {tagCol : String}
    {excelDf sqlDf : DataFrame} {cols : List String} :
    ∀ {rs : List (List Value)} {ups : List Changeset},
      identifyUpdatesAux v tagCol excelDf sqlDf cols rs = .ok ups →
      (∀ r ∈ rs, ∀ x ∈ r, x ≠ Value.str "") →
      ∀ u ∈ ups, ∀ p ∈ u.2, p.2 ≠ Value.null ∧ p.2 ≠ Value.str "" := by
  intro rs
  induction rs with
  | nil =>
    intro ups h _ u hu
    rw [identifyUpdatesAux] at h
    cases h
    simp at hu
  | cons erow rest ih =>
    intro ups h hclean u hu
    have hcrest : ∀ r ∈ rest, ∀ x ∈ r, x ≠ Value.str "" :=
      fun r hr => hclean r (List.mem_cons_of_mem erow hr)
    obtain ⟨tag, -, -, hcase⟩ := identifyUpdatesAux_cons h
    rcases hcase with ⟨-, hrest⟩ | ⟨srow, tl, changes, more, -, hbc, hmore, hend⟩
    · exact ih hrest hcrest u hu
    · have hhead : ∀ p ∈ changes, p.2 ≠ Value.null ∧ p.2 ≠ Value.str "" := by
        intro p hp
        obtain ⟨-, hl, sv, -, hcmp⟩ := buildChanges_mem hbc p hp
        refine ⟨compare_values_true_ne_null hcmp, ?_⟩
        rcases lookupCell_ok_mem hl with hmem | hnull
        · exact hclean erow (List.mem_cons_self erow rest) p.2 hmem
        · exact absurd hnull (compare_values_true_ne_null hcmp)
      rcases hend with ⟨-, rfl⟩ | ⟨-, rfl⟩
      · exact ih hmore hcrest u hu
      · rcases List.mem_cons.mp hu with h1 | h1
        · rw [h1]
          exact hhead
        · exact ih hmore hcrest u h1

/-- C5 counterexample: the claim states that a whitespace-only source cell is
normalised to null and never yields a difference, but _clean_dataframe only
replaces NaN and the empty string; in a non-numeric column the cell " "
survives and is emitted as a changeset entry against the reference value
"x". -/
theorem C5_counterexample :
    process_sheet
      ⟨⟨[], ["S"], ["Tag Number"]⟩, ["Tag Number", "Note"], defaultValidator, "Tag Number"⟩
      "S" ⟨["Tag Number", "Note"], [[Value.str "T1", Value.str " "]]⟩ ["T1"]
      ⟨["Tag Number", "Note"], [[Value.str "T1", Value.str "x"]]⟩ =
    .ok (⟨"S", "1 changes detected", "DRY-RUN", 1⟩,
      [(Value.str "T1", [("Note", Value.str " ")])], []) := by
  decide

/-- C5 (amended): a source cell that is null or blank (the empty string) is
normalised to null before diffing and never yields a changeset entry for its
column, regardless of the reference value: every emitted changeset value is
neither null nor the empty string.  (Whitespace-only cells are nulled only by
numeric coercion in numeric-declared columns; in other columns they survive
cleaning, as the counterexample shows.) -/
theorem C5_null_source_non_destructive (sp : SheetProcessor) (sheetName : String)
    (raw : DataFrame) (existingTags : List String) (sqlData : DataFrame)
    (res : SheetResult) (ups : List Changeset) (errs : List VError)
    (h : process_sheet sp sheetName raw existingTags sqlData = .ok (res, ups, errs)) :
    ∀ u ∈ ups, ∀ p ∈ u.2, p.2 ≠ Value.null ∧ p.2 ≠ Value.str "" := by
  rcases process_sheet_ok h with ⟨rfl, -⟩ | ⟨hid, -⟩
  · intro u hu
    simp at hu
  · exact identifyUpdatesAux_values hid clean_dataframe_no_empty

/-- Witness for C5 at the counterexample input: the emitted whitespace value
is itself neither null nor blank. -/
theorem C5_null_source_non_destructive_witness :
    Value.str " " ≠ Value.null ∧ Value.str " " ≠ Value.str "" :=
  C5_null_source_non_destructive
    ⟨⟨[], ["S"], ["Tag Number"]⟩, ["Tag Number", "Note"], defaultValidator, "Tag Number"⟩
    "S" ⟨["Tag Number", "Note"], [[Value.str "T1", Value.str " "]]⟩ ["T1"]
    ⟨["Tag Number", "Note"], [[Value.str "T1", Value.str "x"]]⟩
    ⟨"S", "1 changes detected", "DRY-RUN", 1⟩
    [(Value.str "T1", [("Note", Value.str " ")])] [] (by decide)
    (Value.str "T1", [("Note", Value.str " ")]) (List.mem_singleton.mpr rfl)
    ("Note", Value.str " ") (List.mem_singleton.mpr rfl)

/-! Claim C9: column scoping of changesets and validation errors. -/

theorem mem_foldl_append {α β : Type} (f : β → List α) :
    ∀ (l : List β) (init : List α) (x : α),
      (x ∈ l.foldl (fun es c => es ++ f c) init ↔ x ∈ init ∨ ∃ c ∈ l, x ∈ f c) := by
  intro l
  induction l with
  | nil =>
    intro init x
    simp
  | cons c cs ih =>
    intro init x
    rw [List.foldl_cons, ih, List.mem_append]
    constructor
    · rintro ((h | h) | ⟨d, hd, hx⟩)
      · exact Or.inl h
      · exact Or.inr ⟨c, List.mem_cons_self c cs, h⟩
      · exact Or.inr ⟨d, List.mem_cons_of_mem c hd, hx⟩
    · rintro (h | ⟨d, hd, hx⟩)
      · exact Or.inl (Or.inl h)
      · rcases List.mem_cons.mp hd with rfl | hd2
        · exact Or.inl (Or.inr hx)
        · exact Or.inr ⟨d, hd2, hx⟩

theorem numericErrorsFor_mem {sheetName tagCol : String} {df : DataFrame}
    {col : String} {e : VError} (h : e ∈ numericErrorsFor sheetName tagCol df col) :
    e.excel_header = col ∧ col ∈ df.columns := by
  unfold numericErrorsFor at h
  cases hc : colIndex df.columns col with
  | none =>
    rw [hc] at h
    simp at h
  | some i =>
    rw [hc] at h
    refine ⟨?_, colIndex_mem hc⟩
    obtain ⟨r, -, hr⟩ := List.mem_filterMap.mp h
    split at hr
    · cases hr
      rfl
    · cases hr

theorem validateNumericColumns_headers {v : DataValidator}
    {sheetName tagCol : String} {df : DataFrame} {e : VError}
    (h : e ∈ (validateNumericColumns v sheetName tagCol df).2) :
    e.excel_header ∈ df.columns := by
  unfold validateNumericColumns at h
  rw [mem_foldl_append] at h
  rcases h with h | ⟨col, -, hcol⟩
  · simp at h
  · obtain ⟨rfl, hmem⟩ := numericErrorsFor_mem hcol
    exact hmem

theorem identifyUpdatesAux_cols {v : DataValidator} {tagCol : String}
    {excelDf sqlDf : DataFrame} {cols : List String} :
    ∀ {rs : List (List Value)} {ups : List Changeset},
      identifyUpdatesAux v tagCol excelDf sqlDf cols rs = .ok ups →
      ∀ u ∈ ups, ∀ p ∈ u.2, p.1 ∈ cols := by
  intro rs
  induction rs with
  | nil =>
    intro ups h u hu
    rw [identifyUpdatesAux] at h
    cases h
    simp at hu
  | cons erow rest ih =>
    intro ups h u hu
    obtain ⟨tag, -, -, hcase⟩ := identifyUpdatesAux_cons h
    rcases hcase with ⟨-, hrest⟩ | ⟨srow, tl, changes, more, -, hbc, hmore, hend⟩
    · exact ih hrest u hu
    · rcases hend with ⟨-, rfl⟩ | ⟨-, rfl⟩
      · exact ih hmore u hu
      · rcases List.mem_cons.mp hu with h1 | h1
        · rw [h1]
          intro p hp
          exact (buildChanges_mem hbc p hp).1
        · exact ih hmore u h1

/-- C9 counterexample: the claim states that a source column whose mapped
name is not among the targets of the header mapping never appears in a
changeset, but the pipeline retains ANY sheet column that is a store column
and not ignored.  The unmapped sheet column "Pressure" (the mapping's only
target is "Temperature") coincides with a store column and is emitted in a
changeset. -/
theorem C9_counterexample :
    process_sheet
      ⟨⟨[("Temp (C)", "Temperature")], ["S"], ["Tag Number"]⟩,
        ["Tag Number", "Pressure"], defaultValidator, "Tag Number"⟩
      "S" ⟨["Tag Number", "Pressure"], [[Value.str "T1", Value.str "5bar"]]⟩ ["T1"]
      ⟨["Tag Number", "Pressure"], [[Value.str "T1", Value.str "6bar"]]⟩ =
    .ok (⟨"S", "1 changes detected", "DRY-RUN", 1⟩,
      [(Value.str "T1", [("Pressure", Value.str "5bar")])], []) ∧
    "Pressure" ∉ [("Temp (C)", "Temperature")].map Prod.snd := by
  constructor
  · decide
  · decide

/-- C9 (amended): every column appearing in a changeset is a (normalised,
mapped) sheet column that is a store column and is not in ignored_headers;
every validation error's header is either such a column or the key column
(always retained).  Columns outside that scope - in particular ignored
columns and columns that are not store columns - never appear in a changeset
or a validation error; being a target of header_to_column is NOT required. -/
theorem C9_column_scoping (sp : SheetProcessor) (sheetName : String)
    (raw : DataFrame) (existingTags : List String) (sqlData : DataFrame)
    (res : SheetResult) (ups : List Changeset) (errs : List VError)
    (h : process_sheet sp sheetName raw existingTags sqlData = .ok (res, ups, errs)) :
    (∀ u ∈ ups, ∀ p ∈ u.2,
       p.1 ∈ mappedColumns sp raw ∧ p.1 ∈ sp.sql_columns ∧
       p.1 ∉ sp.config.ignored_headers) ∧
    (∀ e ∈ errs, e.excel_header = sp.tag_column ∨
       (e.excel_header ∈ mappedColumns sp raw ∧ e.excel_header ∈ sp.sql_columns ∧
        e.excel_header ∉ sp.config.ignored_headers)) := by
  rcases process_sheet_ok h with ⟨rfl, rfl⟩ | ⟨hid, rfl⟩
  · constructor
    · intro u hu
      simp at hu
    · intro e he
      simp at he
  · constructor
    · intro u hu p hp
      exact mem_validColumns.mp (identifyUpdatesAux_cols hid u hu p hp)
    · intro e he
      have hmem := validateNumericColumns_headers he
      rcases List.mem_append.mp hmem with hv | ht
      · exact Or.inr (mem_validColumns.mp hv)
      · exact Or.inl (List.mem_singleton.mp ht)

/-- Witness for C9 at the counterexample input: the emitted column is a
mapped sheet column, a store column, and not ignored. -/
theorem C9_column_scoping_witness :
    "Pressure" ∈ mappedColumns
      ⟨⟨[("Temp (C)", "Temperature")], ["S"], ["Tag Number"]⟩,
        ["Tag Number", "Pressure"], defaultValidator, "Tag Number"⟩
      ⟨["Tag Number", "Pressure"], [[Value.str "T1", Value.str "5bar"]]⟩ ∧
    "Pressure" ∈ ["Tag Number", "Pressure"] ∧ "Pressure" ∉ ["Tag Number"] :=
  (C9_column_scoping
    ⟨⟨[("Temp (C)", "Temperature")], ["S"], ["Tag Number"]⟩,
      ["Tag Number", "Pressure"], defaultValidator, "Tag Number"⟩
    "S" ⟨["Tag Number", "Pressure"], [[Value.str "T1", Value.str "5bar"]]⟩ ["T1"]
    ⟨["Tag Number", "Pressure"], [[Value.str "T1", Value.str "6bar"]]⟩
    ⟨"S", "1 changes detected", "DRY-RUN", 1⟩
    [(Value.str "T1", [("Pressure", Value.str "5bar")])] [] (by decide)).1
    (Value.str "T1", [("Pressure", Value.str "5bar")]) (List.mem_singleton.mpr rfl)
    ("Pressure", Value.str "5bar") (List.mem_singleton.mpr rfl)

/-! Claim C2: the first pass against the empty reference frame raises
KeyError whenever a row survived key filtering, and the per-sheet handler
records the sheet as a "Processing Error" / "ERROR" with no changesets. -/

theorem numericColumnValues_length (parsed : List (Option Value)) :
    (numericColumnValues parsed).length = parsed.length := by
  unfold numericColumnValues
  split <;> simp

theorem convertColumn_length (df : DataFrame) (col : String) :
    (convertColumn df col).rows.length = df.rows.length := by
  unfold convertColumn
  cases hc : colIndex df.columns col with
  | none => rfl
  | some i =>
    simp [List.length_zip, numericColumnValues_length]

theorem convertColumn_columns (df : DataFrame) (col : String) :
    (convertColumn df col).columns = df.columns := by
  unfold convertColumn
  cases hc : colIndex df.columns col with
  | none => rfl
  | some i => rfl

theorem foldl_convert_length (cols : List String) :
    ∀ df : DataFrame, (cols.foldl convertColumn df).rows.length = df.rows.length := by
  induction cols with
  | nil => intro df; rfl
  | cons c cs ih =>
    intro df
    rw [List.foldl_cons, ih, convertColumn_length]

theorem foldl_convert_columns (cols : List String) :
    ∀ df : DataFrame, (cols.foldl convertColumn df).columns = df.columns := by
  induction cols with
  | nil => intro df; rfl
  | cons c cs ih =>
    intro df
    rw [List.foldl_cons, ih, convertColumn_columns]

theorem identify_updates_empty_sql {v : DataValidator} {tagCol : String}
    {excelDf : DataFrame} {cols : List String}
    (hcols : tagCol ∈ excelDf.columns) (hrows : excelDf.rows ≠ []) :
    identify_updates v tagCol excelDf emptyDataFrame cols =
      .error "KeyError: tag column missing from reference data" := by
  unfold identify_updates
  cases hr : excelDf.rows with
  | nil => exact absurd hr hrows
  | cons erow rest =>
    rw [identifyUpdatesAux]
    have hsome := colIndex_isSome_of_mem hcols
    cases hi : colIndex excelDf.columns tagCol with
    | none =>
      rw [hi] at hsome
      simp at hsome
    | some i =>
      rw [show lookupCell excelDf erow tagCol = .ok (erow.getD i Value.null) from by
        unfold lookupCell; rw [hi]]
      dsimp only
      rw [if_neg (fun hcon => Bool.noConfusion hcon)]

/-- The full pipeline against the empty reference frame: the key-column
lookup on the empty frame raises KeyError. -/
theorem process_sheet_empty_sql_error (sp : SheetProcessor) (sheetName : String)
    (raw : DataFrame) (existingTags : List String)
    (hTag : sp.tag_column ∈ mappedColumns sp raw)
    (hRow : (filteredDf sp raw existingTags).rows ≠ []) :
    process_sheet sp sheetName raw existingTags emptyDataFrame =
      .error "KeyError: tag column missing from reference data" := by
  unfold process_sheet
  have hcon : (mappedColumns sp raw).contains sp.tag_column = true :=
    contains_iff_mem.mpr hTag
  rw [if_neg (by rw [hcon]; simp)]
  rw [if_neg (by simpa [List.isEmpty_iff] using hRow)]
  rw [identify_updates_empty_sql ?_ ?_]
  · have h1 : (clean_dataframe (validateNumericColumns sp.validator sheetName
      sp.tag_column (selectedDf sp raw existingTags)).1).columns =
      validColumns sp raw ++ [sp.tag_column] := by
      show (validateNumericColumns sp.validator sheetName sp.tag_column
        (selectedDf sp raw existingTags)).1.columns = _
      unfold validateNumericColumns
      rw [foldl_convert_columns]
      rfl
    rw [h1]
    exact List.mem_append_right _ (List.mem_singleton.mpr rfl)
  · intro hc
    apply hRow
    have h2 : (clean_dataframe (validateNumericColumns sp.validator sheetName
      sp.tag_column (selectedDf sp raw existingTags)).1).rows.length =
      (filteredDf sp raw existingTags).rows.length := by
      show ((validateNumericColumns sp.validator sheetName sp.tag_column
        (selectedDf sp raw existingTags)).1.rows.map _).length = _
      rw [List.length_map]
      show ((sp.validator.numeric_columns.foldl convertColumn
        (selectedDf sp raw existingTags)).rows).length = _
      rw [foldl_convert_length]
      show ((filteredDf sp raw existingTags).rows.map _).length = _
      rw [List.length_map]
    rw [hc] at h2
    simp at h2
    exact (List.length_eq_zero.mp h2.symm)

/-- C2: for a sheet whose (mapped) columns include the key column and in
which at least one row survives key filtering, the first-pass call with the
empty reference frame fails with KeyError, and the per-sheet handler of the
orchestrator records exactly the SheetResult ("Processing Error", "ERROR"):
no fetch happens, no changeset is produced or applied, the store, the
detected/committed counters and the collected validation errors are
untouched - in simulation and in real-run mode alike. -/
theorem C2_first_pass_key_error (sp : SheetProcessor) (sheetName : String)
    (raw : DataFrame) (existingTags : List String)
    (hTag : sp.tag_column ∈ mappedColumns sp raw)
    (hRow : (filteredDf sp raw existingTags).rows ≠ []) :
    process_sheet sp sheetName raw existingTags emptyDataFrame =
      .error "KeyError: tag column missing from reference data" ∧
    ∀ (batchSize : Nat) (oracle : Value → List (String × Value) → Bool)
      (dryRun : Bool) (st : RunState),
      processOneSheet sp existingTags batchSize oracle dryRun st (sheetName, raw) =
        { st with sheetResults :=
            st.sheetResults ++ [⟨sheetName, "Processing Error", "ERROR", 0⟩] } := by
  have hmain := process_sheet_empty_sql_error sp sheetName raw existingTags hTag hRow
  refine ⟨hmain, ?_⟩
  intro batchSize oracle dryRun st
  unfold processOneSheet
  rw [hmain]

/-- Witness for C2 at a concrete sheet with one surviving row, in real-run
mode: the sheet is recorded as ERROR and the state (store included) is
otherwise unchanged. -/
theorem C2_first_pass_key_error_witness :
    process_sheet
      ⟨⟨[], ["S"], ["Tag Number"]⟩, ["Tag Number", "Note"], defaultValidator, "Tag Number"⟩
      "S" ⟨["Tag Number", "Note"], [[Value.str "T1", Value.str "y"]]⟩ ["T1"]
      emptyDataFrame = .error "KeyError: tag column missing from reference data" ∧
    processOneSheet
      ⟨⟨[], ["S"], ["Tag Number"]⟩, ["Tag Number", "Note"], defaultValidator, "Tag Number"⟩
      ["T1"] 2000 (fun _ _ => false) false
      ⟨[], [], 0, 0, ⟨["Tag Number", "Note"], [[Value.str "T1", Value.str "x"]]⟩, 0⟩
      ("S", ⟨["Tag Number", "Note"], [[Value.str "T1", Value.str "y"]]⟩) =
      ⟨[⟨"S", "Processing Error", "ERROR", 0⟩], [], 0, 0,
       ⟨["Tag Number", "Note"], [[Value.str "T1", Value.str "x"]]⟩, 0⟩ := by
  have h := C2_first_pass_key_error
    ⟨⟨[], ["S"], ["Tag Number"]⟩, ["Tag Number", "Note"], defaultValidator, "Tag Number"⟩
    "S" ⟨["Tag Number", "Note"], [[Value.str "T1", Value.str "y"]]⟩ ["T1"]
    (by decide) (by decide)
  refine ⟨h.1, ?_⟩
  rw [h.2 2000 (fun _ _ => false) false
    ⟨[], [], 0, 0, ⟨["Tag Number", "Note"], [[Value.str "T1", Value.str "x"]]⟩, 0⟩]
  rfl

/-! Claim C1: the two-phase diff contract.  The code's first pass crashes on
the empty reference frame, so the fetch and second pass never execute. -/

/-- C1 (code defect made concrete): a real-run import of a workbook with one
allowed sheet holding one row whose key "T1" exists in the store and whose
"Note" value genuinely differs from the store value.  The claimed contract
requires phase one to discover the candidate key T1, phase two to diff
against the fetched record and to produce the changeset.  Instead the sheet
is recorded as "Processing Error"/"ERROR", zero changesets are detected, the
update path is never invoked (batch-call count 0) and the store is
unchanged. -/
theorem C1_two_phase_diff_never_fetches :
    run_import "Tag Number" (1/1000000) 2000
      ⟨.ok ⟨[], ["S"], ["Tag Number"]⟩, true, true, true,
       .ok ⟨[("S", ⟨["Tag Number", "Note"], [[Value.str "T1", Value.str "y"]]⟩)]⟩,
       fun _ _ => false⟩
      [] ⟨["Tag Number", "Note"], [[Value.str "T1", Value.str "x"]]⟩ false =
    (⟨true, [⟨"S", "Processing Error", "ERROR", 0⟩], 0, 0, [], none, none⟩,
     ⟨["Tag Number", "Note"], [[Value.str "T1", Value.str "x"]]⟩, 0) := by
  decide

/-! Claim C3: simulation mode is non-destructive and detects the same
changesets and validation errors as a real run from the same state. -/

theorem process_sheet_empty_sql_no_updates {sp : SheetProcessor}
    {sheetName : String} {raw : DataFrame} {existingTags : List String}
    {res : SheetResult} {ups : List Changeset} {errs : List VError}
    (h : process_sheet sp sheetName raw existingTags emptyDataFrame =
      .ok (res, ups, errs)) :
    ups = [] ∧ errs = [] := by
  by_cases hTag : sp.tag_column ∈ mappedColumns sp raw
  · by_cases hRow : (filteredDf sp raw existingTags).rows = []
    · unfold process_sheet at h
      rw [if_neg (by rw [contains_iff_mem.mpr hTag]; simp)] at h
      rw [if_pos (by rw [List.isEmpty_iff]; exact hRow)] at h
      cases h
      exact ⟨rfl, rfl⟩
    · rw [process_sheet_empty_sql_error sp sheetName raw existingTags hTag hRow] at h
      cases h
  · have hcon : (mappedColumns sp raw).contains sp.tag_column = false := by
      cases hc : (mappedColumns sp raw).contains sp.tag_column
      · rfl
      · exact absurd (contains_iff_mem.mp hc) hTag
    unfold process_sheet at h
    rw [if_pos (by rw [hcon]; rfl)] at h
    cases h
    exact ⟨rfl, rfl⟩

theorem processOneSheet_dryRun_eq (sp : SheetProcessor) (existingTags : List String)
    (batchSize : Nat) (oracle : Value → List (String × Value) → Bool)
    (st : RunState) (sheet : String × DataFrame) :
    processOneSheet sp existingTags batchSize oracle true st sheet =
      processOneSheet sp existingTags batchSize oracle false st sheet ∧
    (processOneSheet sp existingTags batchSize oracle true st sheet).store = st.store ∧
    (processOneSheet sp existingTags batchSize oracle true st sheet).batchCalls =
      st.batchCalls ∧
    (processOneSheet sp existingTags batchSize oracle true st sheet).totalCommitted =
      st.totalCommitted := by
  unfold processOneSheet
  cases hp : process_sheet sp sheet.1 sheet.2 existingTags emptyDataFrame with
  | error e => exact ⟨rfl, rfl, rfl, rfl⟩
  | ok r1 =>
    obtain ⟨res1, ups1, errs1⟩ := r1
    obtain ⟨rfl, rfl⟩ := process_sheet_empty_sql_no_updates hp
    exact ⟨rfl, rfl, rfl, rfl⟩

theorem foldl_processOneSheet_dryRun_eq (sp : SheetProcessor)
    (existingTags : List String) (batchSize : Nat)
    (oracle : Value → List (String × Value) → Bool) :
    ∀ (sheets : List (String × DataFrame)) (st : RunState),
      sheets.foldl (processOneSheet sp existingTags batchSize oracle true) st =
        sheets.foldl (processOneSheet sp existingTags batchSize oracle false) st ∧
      (sheets.foldl (processOneSheet sp existingTags batchSize oracle true) st).store =
        st.store ∧
      (sheets.foldl (processOneSheet sp existingTags batchSize oracle true) st).batchCalls =
        st.batchCalls ∧
      (sheets.foldl (processOneSheet sp existingTags batchSize oracle true) st).totalCommitted =
        st.totalCommitted := by
  intro sheets
  induction sheets with
  | nil =>
    intro st
    exact ⟨rfl, rfl, rfl, rfl⟩
  | cons s ss ih =>
    intro st
    rw [List.foldl_cons, List.foldl_cons]
    obtain ⟨he, hs, hb, hc⟩ := processOneSheet_dryRun_eq sp existingTags batchSize oracle st s
    rw [← he]
    obtain ⟨ihe, ihs, ihb, ihc⟩ :=
      ih (processOneSheet sp existingTags batchSize oracle true st s)
    exact ⟨ihe, by rw [ihs, hs], by rw [ihb, hb], by rw [ihc, hc]⟩

/-- C3: a simulation run (dry_run = true) never invokes batch_update_records
(the batch-call trace is 0), leaves every store record unchanged, and its
entire result - sheet outcomes, detected changesets, validation errors,
committed count - is identical to the result of a real run started from the
same inputs and the same initial store state.  (With the phase-one KeyError
defect, no sheet ever reaches the update path, so the two modes coincide
everywhere.) -/
theorem C3_simulation_non_destructive (tagCol : String) (threshold : ℚ)
    (batchSize : Nat) (env : RunEnv) (numericCols : List String)
    (store : DataFrame) :
    run_import tagCol threshold batchSize env numericCols store true =
      run_import tagCol threshold batchSize env numericCols store false ∧
    (run_import tagCol threshold batchSize env numericCols store true).2.1 = store ∧
    (run_import tagCol threshold batchSize env numericCols store true).2.2 = 0 := by
  unfold run_import
  cases env.processingConfig with
  | error e => exact ⟨rfl, rfl, rfl⟩
  | ok cfg =>
    cases h1 : env.connectOk with
    | false => exact ⟨rfl, rfl, rfl⟩
    | true =>
      cases h2 : env.metadataOk with
      | false => exact ⟨rfl, rfl, rfl⟩
      | true =>
        cases h3 : env.tagsOk with
        | false => exact ⟨rfl, rfl, rfl⟩
        | true =>
          cases hw : env.workbook with
          | error e => exact ⟨rfl, rfl, rfl⟩
          | ok wb =>
            dsimp only
            obtain ⟨he, hs, hb, -⟩ := foldl_processOneSheet_dryRun_eq
              ⟨cfg, store.columns, ⟨numericCols, threshold⟩, tagCol⟩
              (get_existing_tags tagCol store) batchSize env.oracle
              (wb.sheets.filter (fun s => cfg.allowed_sheets.contains s.1))
              ⟨[], [], 0, 0, store, 0⟩
            unfold process_excel_file
            refine ⟨by rw [he], ?_, ?_⟩
            · exact hs
            · exact hb

/-! Claim C7: the run returns a structured result, per-sheet failures are
isolated, and only pre-sheet failures make the run unsuccessful. -/

theorem processOneSheet_length (sp : SheetProcessor) (existingTags : List String)
    (batchSize : Nat) (oracle : Value → List (String × Value) → Bool)
    (dryRun : Bool) (st : RunState) (sheet : String × DataFrame) :
    (processOneSheet sp existingTags batchSize oracle dryRun st sheet).sheetResults.length =
      st.sheetResults.length + 1 := by
  unfold processOneSheet
  cases hp : process_sheet sp sheet.1 sheet.2 existingTags emptyDataFrame with
  | error e => simp
  | ok r1 =>
    dsimp only
    cases hq : (if r1.2.1.isEmpty then Except.ok r1
        else process_sheet sp sheet.1 sheet.2 existingTags
          (fetch_records_by_tags sp.tag_column st.store (r1.2.1.map (·.1)) batchSize)) with
    | error e => simp
    | ok r2 =>
      obtain ⟨res, updates, verrs⟩ := r2
      dsimp only
      by_cases hu : updates.isEmpty
      · rw [if_pos hu]
        simp
      · rw [if_neg hu]
        by_cases hd : dryRun = true
        · rw [if_pos hd]
          simp
        · rw [if_neg hd]
          cases hb : batch_update_records sp.tag_column oracle st.store updates with
          | mk store2 outcome =>
            cases outcome <;> simp

theorem foldl_processOneSheet_length (sp : SheetProcessor)
    (existingTags : List String) (batchSize : Nat)
    (oracle : Value → List (String × Value) → Bool) (dryRun : Bool) :
    ∀ (sheets : List (String × DataFrame)) (st : RunState),
      (sheets.foldl (processOneSheet sp existingTags batchSize oracle dryRun) st).sheetResults.length =
        st.sheetResults.length + sheets.length := by
  intro sheets
  induction sheets with
  | nil =>
    intro st
    simp
  | cons s ss ih =>
    intro st
    rw [List.foldl_cons, ih, processOneSheet_length]
    simp only [List.length_cons]
    omega

/-- C7: run_import is a total function into the structured ImportResult (in
the embedding it can never raise).  Its success flag is false exactly when a
pre-sheet step fails - configuration load, connection, metadata query, tag
query, or opening the workbook; and when those steps succeed, the run
processes every allowed sheet of the workbook: the sheet_results enumerate
exactly the allowed sheets, one outcome each, regardless of any per-sheet
failure, and the run still reports success = true. -/
theorem C7_run_never_raises (tagCol : String) (threshold : ℚ) (batchSize : Nat)
    (env : RunEnv) (numericCols : List String) (store : DataFrame) (dryRun : Bool) :
    ((run_import tagCol threshold batchSize env numericCols store dryRun).1.success = true ↔
      ((∃ cfg, env.processingConfig = .ok cfg) ∧ env.connectOk = true ∧
       env.metadataOk = true ∧ env.tagsOk = true ∧ ∃ wb, env.workbook = .ok wb)) ∧
    (∀ cfg wb, env.processingConfig = .ok cfg → env.workbook = .ok wb →
      env.connectOk = true → env.metadataOk = true → env.tagsOk = true →
      (run_import tagCol threshold batchSize env numericCols store dryRun).1.sheet_results.length =
        (wb.sheets.filter (fun s => cfg.allowed_sheets.contains s.1)).length) := by
  constructor
  · unfold run_import
    cases hcfg : env.processingConfig with
    | error e =>
      show (failureResult _).success = true ↔ _
      simp [failureResult]
    | ok cfg =>
      cases h1 : env.connectOk with
      | false =>
        show (failureResult _).success = true ↔ _
        simp [failureResult]
      | true =>
        cases h2 : env.metadataOk with
        | false =>
          show (failureResult _).success = true ↔ _
          simp [failureResult]
        | true =>
          cases h3 : env.tagsOk with
          | false =>
            show (failureResult _).success = true ↔ _
            simp [failureResult]
          | true =>
            cases hw : env.workbook with
            | error e =>
              show (failureResult _).success = true ↔ _
              simp [failureResult]
            | ok wb =>
              show true = true ↔ _
              simp
  · intro cfg wb hcfg hwb h1 h2 h3
    unfold run_import
    rw [hcfg, h1, h2, h3, hwb]
    dsimp only [runOutcome]
    unfold process_excel_file
    rw [foldl_processOneSheet_length]
    simp

/-- Witness for C7: a run over one allowed sheet whose processing errors out
still enumerates that sheet (one outcome). -/
theorem C7_run_never_raises_witness :
    (run_import "Tag Number" (1/1000000) 2000
      ⟨.ok ⟨[], ["S"], ["Tag Number"]⟩, true, true, true,
       .ok ⟨[("S", ⟨["Tag Number", "Note"], [[Value.str "T1", Value.str "y"]]⟩)]⟩,
       fun _ _ => false⟩
      [] ⟨["Tag Number", "Note"], [[Value.str "T1", Value.str "x"]]⟩ true).1.sheet_results.length = 1 := by
  rw [(C7_run_never_raises "Tag Number" (1/1000000) 2000
      ⟨.ok ⟨[], ["S"], ["Tag Number"]⟩, true, true, true,
       .ok ⟨[("S", ⟨["Tag Number", "Note"], [[Value.str "T1", Value.str "y"]]⟩)]⟩,
       fun _ _ => false⟩
      [] ⟨["Tag Number", "Note"], [[Value.str "T1", Value.str "x"]]⟩ true).2
    ⟨[], ["S"], ["Tag Number"]⟩
    ⟨[("S", ⟨["Tag Number", "Note"], [[Value.str "T1", Value.str "y"]]⟩)]⟩
    rfl rfl rfl rfl rfl]
  rfl

/-! Claim C8: the round trip.  Applying every changeset of a diff to the
reference records and re-diffing the same source rows yields no changesets -
provided the source keys are pairwise distinct. -/

/-- Applying the changesets of a diff to the reference records: the store
image of a successful batch_update_records (no statement fails). -/
def applyChangesets (tagCol : String) (store : DataFrame)
    (ups : List Changeset) : DataFrame :=
  (batch_update_records tagCol (fun _ _ => false) store ups).1

theorem pyEq_false_forward {a b c : Value} (hab : pyEq a b = true)
    (hbc : pyEq b c = false) : pyEq a c = false := by
  cases hac : pyEq a c
  · rfl
  · have h1 := (pyEq_iff_interp a b).mp hab
    have h2 := (pyEq_iff_interp a c).mp hac
    rw [(pyEq_iff_interp b c).mpr (h1.symm.trans h2)] at hbc
    cases hbc

theorem lookupCell_ok_rowGetD {df : DataFrame} {r : List Value} {c : String}
    {x : Value} (h : lookupCell df r c = .ok x) : rowGetD df.columns r c = x := by
  unfold lookupCell at h
  unfold rowGetD
  cases hc : colIndex df.columns c with
  | none => rw [hc] at h; cases h
  | some i =>
    rw [hc] at h
    cases h
    rfl

theorem getD_set_eq : ∀ (r : List Value) (i : Nat), i < r.length →
    ∀ (v d : Value), (r.set i v).getD i d = v := by
  intro r
  induction r with
  | nil =>
    intro i hi
    simp at hi
  | cons a rest ih =>
    intro i hi v d
    cases i with
    | zero => rfl
    | succ j =>
      simp only [List.set, List.getD_cons_succ]
      exact ih j (by simpa using hi) v d

theorem applyChangesToRow_length (cols : List String)
    (changes : List (String × Value)) :
    ∀ r : List Value, (applyChangesToRow cols changes r).length = r.length := by
  induction changes with
  | nil => intro r; rfl
  | cons p rest ih =>
    intro r
    unfold applyChangesToRow
    rw [List.foldl_cons]
    cases hc : colIndex cols p.1 with
    | none => exact ih r
    | some i =>
      rw [show (List.foldl _ (r.set i p.2) rest) =
        applyChangesToRow cols rest (r.set i p.2) from rfl]
      rw [ih (r.set i p.2), List.length_set]

/-- After applying a field list to a row, a column that carries value `vc` in
every one of its field entries, and occurs among them, reads back `vc`. -/
theorem applyChangesToRow_getD {cols : List String} {c : String} {i : Nat}
    (hci : colIndex cols c = some i) {vc : Value} :
    ∀ (ch : List (String × Value)) (r : List Value), i < r.length →
      (c, vc) ∈ ch → (∀ p ∈ ch, p.1 = c → p.2 = vc) →
      rowGetD cols (applyChangesToRow cols ch r) c = vc := by
  intro ch
  induction ch with
  | nil =>
    intro r _ hmem
    simp at hmem
  | cons p rest ih =>
    intro r hlen hmem huniq
    unfold applyChangesToRow
    rw [List.foldl_cons]
    by_cases hpc : p.1 = c
    · have hpv : p.2 = vc := huniq p (List.mem_cons_self p rest) hpc
      rw [hpc]
      rw [hci]
      rw [show (List.foldl _ (r.set i p.2) rest) =
        applyChangesToRow cols rest (r.set i p.2) from rfl]
      by_cases hrest : ∃ q ∈ rest, q.1 = c
      · obtain ⟨q, hq, hqc⟩ := hrest
        have hqv : q.2 = vc := huniq q (List.mem_cons_of_mem p hq) hqc
        have hmem2 : (c, vc) ∈ rest := by
          have : q = (c, vc) := by
            obtain ⟨q1, q2⟩ := q
            simp only at hqc hqv
            rw [hqc, hqv]
          rw [← this]
          exact hq
        exact ih (r.set i p.2) (by rw [List.length_set]; exact hlen) hmem2
          (fun q2 hq2 => huniq q2 (List.mem_cons_of_mem p hq2))
      · have hnone : ∀ q ∈ rest, q.1 ≠ c := by
          intro q hq hqc
          exact hrest ⟨q, hq, hqc⟩
        rw [applyChangesToRow_rowGetD_of_notMem hnone]
        unfold rowGetD
        rw [hci, hpv]
        exact getD_set_eq r i hlen vc Value.null
    · have hmem2 : (c, vc) ∈ rest := by
        rcases List.mem_cons.mp hmem with h1 | h1
        · exact absurd (by rw [← h1]) hpc
        · exact h1
      cases hq : colIndex cols p.1 with
      | none =>
        exact ih r hlen hmem2 (fun q hq2 => huniq q (List.mem_cons_of_mem p hq2))
      | some j =>
        rw [show (List.foldl _ (r.set j p.2) rest) =
          applyChangesToRow cols rest (r.set j p.2) from rfl]
        rw [ih (r.set j p.2) (by rw [List.length_set]; exact hlen) hmem2
          (fun q hq2 => huniq q (List.mem_cons_of_mem p hq2))]

/-- The per-row image of applying a changeset list in sequence, as the batch
updater does: skip empty field lists, rewrite the row when its key matches. -/
def rowApplyUps (cols : List String) (tagCol : String) (ups : List Changeset)
    (m : List Value) : List Value :=
  ups.foldl (fun r u =>
    if u.2.isEmpty then r
    else if pyEq (rowGetD cols r tagCol) u.1 then applyChangesToRow cols u.2 r
    else r) m

theorem rowApplyUps_nil (cols : List String) (tagCol : String) (m : List Value) :
    rowApplyUps cols tagCol [] m = m := rfl

theorem rowApplyUps_cons (cols : List String) (tagCol : String) (u : Changeset)
    (rest : List Changeset) (m : List Value) :
    rowApplyUps cols tagCol (u :: rest) m =
      rowApplyUps cols tagCol rest
        (if u.2.isEmpty then m
         else if pyEq (rowGetD cols m tagCol) u.1 then applyChangesToRow cols u.2 m
         else m) := by
  unfold rowApplyUps
  rw [List.foldl_cons]

theorem batchUpdateAux_noFail (tagCol : String) :
    ∀ (ups : List Changeset) (cur : DataFrame) (count : Nat),
      ∃ n, batchUpdateAux tagCol (fun _ _ => false) cur count ups =
        .ok (⟨cur.columns, cur.rows.map (rowApplyUps cur.columns tagCol ups)⟩, n) := by
  intro ups
  induction ups with
  | nil =>
    intro cur count
    refine ⟨count, ?_⟩
    rw [batchUpdateAux]
    have : cur.rows.map (rowApplyUps cur.columns tagCol []) = cur.rows := by
      rw [show rowApplyUps cur.columns tagCol [] = fun m => m from rfl]
      exact List.map_id cur.rows
    rw [this]
  | cons u rest ih =>
    intro cur count
    by_cases he : u.2.isEmpty
    · obtain ⟨n, hn⟩ := ih cur count
      refine ⟨n, ?_⟩
      rw [batchUpdateAux, if_pos he, hn]
      have : cur.rows.map (rowApplyUps cur.columns tagCol (u :: rest)) =
          cur.rows.map (rowApplyUps cur.columns tagCol rest) := by
        apply List.map_congr_left
        intro m _
        rw [rowApplyUps_cons, if_pos he]
      rw [this]
    · obtain ⟨n, hn⟩ := ih (applyOneUpdate tagCol cur u.1 u.2).1
        (count + (applyOneUpdate tagCol cur u.1 u.2).2)
      refine ⟨n, ?_⟩
      rw [batchUpdateAux, if_neg he, if_neg (by simp)]
      rw [hn]
      have hcols : (applyOneUpdate tagCol cur u.1 u.2).1.columns = cur.columns := rfl
      have hrows : (applyOneUpdate tagCol cur u.1 u.2).1.rows.map
          (rowApplyUps cur.columns tagCol rest) =
          cur.rows.map (rowApplyUps cur.columns tagCol (u :: rest)) := by
        show (cur.rows.map _).map (rowApplyUps cur.columns tagCol rest) = _
        rw [List.map_map]
        apply List.map_congr_left
        intro m _
        show rowApplyUps cur.columns tagCol rest
          (if pyEq (rowGetD cur.columns m tagCol) u.1 then
            applyChangesToRow cur.columns u.2 m else m) = _
        rw [rowApplyUps_cons, if_neg he]
      rw [show (⟨(applyOneUpdate tagCol cur u.1 u.2).1.columns,
          (applyOneUpdate tagCol cur u.1 u.2).1.rows.map
            (rowApplyUps (applyOneUpdate tagCol cur u.1 u.2).1.columns tagCol rest)⟩ :
          DataFrame) =
        ⟨cur.columns, cur.rows.map (rowApplyUps cur.columns tagCol (u :: rest))⟩ from by
          rw [DataFrame.mk.injEq]
          exact ⟨rfl, hrows⟩]

theorem applyChangesets_eq (tagCol : String) (store : DataFrame)
    (ups : List Changeset) :
    applyChangesets tagCol store ups =
      ⟨store.columns, store.rows.map (rowApplyUps store.columns tagCol ups)⟩ := by
  obtain ⟨n, hn⟩ := batchUpdateAux_noFail tagCol ups store 0
  unfold applyChangesets batch_update_records
  rw [hn]

theorem rowApplyUps_tag {cols : List String} {tagCol : String} :
    ∀ {ups : List Changeset}, (∀ u ∈ ups, ∀ p ∈ u.2, p.1 ≠ tagCol) →
      ∀ m : List Value,
        rowGetD cols (rowApplyUps cols tagCol ups m) tagCol = rowGetD cols m tagCol := by
  intro ups
  induction ups with
  | nil =>
    intro _ m
    rfl
  | cons u rest ih =>
    intro h m
    rw [rowApplyUps_cons]
    rw [ih (fun u2 hu2 => h u2 (List.mem_cons_of_mem u hu2))]
    by_cases he : u.2.isEmpty
    · rw [if_pos he]
    · rw [if_neg he]
      by_cases hm : pyEq (rowGetD cols m tagCol) u.1
      · rw [if_pos hm]
        exact applyChangesToRow_rowGetD_of_notMem
          (h u (List.mem_cons_self u rest)) m
      · rw [if_neg hm]

theorem rowApplyUps_foreign {cols : List String} {tagCol : String} :
    ∀ {ups : List Changeset} (m : List Value),
      (∀ u ∈ ups, pyEq (rowGetD cols m tagCol) u.1 = false) →
      rowApplyUps cols tagCol ups m = m := by
  intro ups
  induction ups with
  | nil =>
    intro m _
    rfl
  | cons u rest ih =>
    intro m h
    rw [rowApplyUps_cons]
    have hu : pyEq (rowGetD cols m tagCol) u.1 = false :=
      h u (List.mem_cons_self u rest)
    by_cases he : u.2.isEmpty
    · rw [if_pos he]
      exact ih m (fun u2 hu2 => h u2 (List.mem_cons_of_mem u hu2))
    · rw [if_neg he, if_neg (by rw [hu]; simp)]
      exact ih m (fun u2 hu2 => h u2 (List.mem_cons_of_mem u hu2))

theorem rowApplyUps_own {cols : List String} {tagCol : String} {t : Value}
    {ch : List (String × Value)} (hch : ¬ch.isEmpty = true)
    (hno : ∀ p ∈ ch, p.1 ≠ tagCol) :
    ∀ (A B : List Changeset) (m : List Value),
      (∀ u ∈ A, pyEq (rowGetD cols m tagCol) u.1 = false) →
      pyEq (rowGetD cols m tagCol) t = true →
      (∀ u ∈ B, pyEq (rowGetD cols m tagCol) u.1 = false) →
      rowApplyUps cols tagCol (A ++ (t, ch) :: B) m = applyChangesToRow cols ch m := by
  intro A
  induction A with
  | nil =>
    intro B m _ hmatch hB
    rw [List.nil_append, rowApplyUps_cons, if_neg hch, if_pos hmatch]
    apply rowApplyUps_foreign
    intro u hu
    rw [applyChangesToRow_rowGetD_of_notMem hno]
    exact hB u hu
  | cons a A2 ih =>
    intro B m hA hmatch hB
    rw [List.cons_append, rowApplyUps_cons]
    have ha : pyEq (rowGetD cols m tagCol) a.1 = false :=
      hA a (List.mem_cons_self a A2)
    by_cases he : a.2.isEmpty
    · rw [if_pos he]
      exact ih B m (fun u hu => hA u (List.mem_cons_of_mem a hu)) hmatch hB
    · rw [if_neg he, if_neg (by rw [ha]; simp)]
      exact ih B m (fun u hu => hA u (List.mem_cons_of_mem a hu)) hmatch hB

theorem buildChanges_complete {v : DataValidator} {excelDf sqlDf : DataFrame}
    {erow srow : List Value} :
    ∀ {cols : List String} {changes : List (String × Value)},
      buildChanges v excelDf sqlDf erow srow cols = .ok changes →
      ∀ c ∈ cols, ∃ ev sv, lookupCell excelDf erow c = .ok ev ∧
        lookupCell sqlDf srow c = .ok sv ∧
        (compare_values v ev sv = true → (c, ev) ∈ changes) := by
  intro cols
  induction cols with
  | nil =>
    intro changes h c hc
    simp at hc
  | cons c0 cs ih =>
    intro changes h c hc
    obtain ⟨ev, sv, rest, hev, hsv, hrest, hcase⟩ := buildChanges_cons h
    rcases List.mem_cons.mp hc with rfl | hc2
    · refine ⟨ev, sv, hev, hsv, fun hcmp => ?_⟩
      rcases hcase with ⟨-, rfl⟩ | ⟨hfalse, rfl⟩
      · exact List.mem_cons_self _ _
      · rw [hcmp] at hfalse
        cases hfalse
    · obtain ⟨ev2, sv2, hev2, hsv2, himp⟩ := ih hrest c hc2
      refine ⟨ev2, sv2, hev2, hsv2, fun hcmp => ?_⟩
      rcases hcase with ⟨-, rfl⟩ | ⟨-, rfl⟩
      · exact List.mem_cons_of_mem _ (himp hcmp)
      · exact himp hcmp

theorem buildChanges_nil_of_eq {v : DataValidator} {excelDf sqlDf : DataFrame}
    {erow srow : List Value} :
    ∀ {cols : List String},
      (∀ c ∈ cols, ∃ ev sv, lookupCell excelDf erow c = .ok ev ∧
        lookupCell sqlDf srow c = .ok sv ∧ compare_values v ev sv = false) →
      buildChanges v excelDf sqlDf erow srow cols = .ok [] := by
  intro cols
  induction cols with
  | nil =>
    intro _
    rfl
  | cons c0 cs ih =>
    intro h
    obtain ⟨ev, sv, hev, hsv, hcmp⟩ := h c0 (List.mem_cons_self c0 cs)
    rw [buildChanges, hev]
    dsimp only
    rw [hsv]
    dsimp only
    rw [ih (fun c hc => h c (List.mem_cons_of_mem c0 hc))]
    dsimp only
    rw [if_neg (by rw [hcmp]; simp)]

theorem lookupCell_eq_ok {df : DataFrame} {c : String} {i : Nat}
    (hci : colIndex df.columns c = some i) (r : List Value) :
    lookupCell df r c = .ok (rowGetD df.columns r c) := by
  unfold lookupCell rowGetD
  rw [hci]

theorem lookupCell_ok_colIndex {df : DataFrame} {r : List Value} {c : String}
    {x : Value} (h : lookupCell df r c = .ok x) :
    ∃ i, colIndex df.columns c = some i := by
  unfold lookupCell at h
  cases hc : colIndex df.columns c with
  | none => rw [hc] at h; cases h
  | some i => exact ⟨i, rfl⟩

theorem identifyUpdatesAux_no_tagCol {v : DataValidator} {tagCol : String}
    {excelDf sqlDf : DataFrame} {cols : List String}
    (h0 : 0 ≤ v.float_threshold) :
    ∀ {rs : List (List Value)} {ups : List Changeset},
      identifyUpdatesAux v tagCol excelDf sqlDf cols rs = .ok ups →
      ∀ u ∈ ups, ∀ p ∈ u.2, p.1 ≠ tagCol := by
  intro rs
  induction rs with
  | nil =>
    intro ups h u hu
    rw [identifyUpdatesAux] at h
    cases h
    simp at hu
  | cons erow rest ih =>
    intro ups h u hu
    obtain ⟨tag, hl, -, hcase⟩ := identifyUpdatesAux_cons h
    rcases hcase with ⟨-, hrest⟩ | ⟨srow, tl, changes, more, hfil, hbc, hmore, hend⟩
    · exact ih hrest u hu
    · have hhead : ∀ p ∈ changes, p.1 ≠ tagCol := by
        intro p hp hpc
        obtain ⟨-, hle, sv, hls, hcmp⟩ := buildChanges_mem hbc p hp
        rw [hpc] at hle hls
        rw [hl] at hle
        injection hle with hev
        have hsrow_mem : srow ∈ sqlDf.rows.filter
            (fun r => pyEq (rowGetD sqlDf.columns r tagCol) tag) := by
          rw [hfil]
          exact List.mem_cons_self _ _
        have hsrow := (List.mem_filter.mp hsrow_mem).2
        have hsv : rowGetD sqlDf.columns srow tagCol = sv := lookupCell_ok_rowGetD hls
        have hne := compare_values_true_not_pyEq h0 hcmp
        rw [← hev, ← hsv] at hne
        rw [pyEq_symm tag (rowGetD sqlDf.columns srow tagCol)] at hne
        rw [hsrow] at hne
        cases hne
      rcases hend with ⟨-, rfl⟩ | ⟨-, rfl⟩
      · exact ih hmore u hu
      · rcases List.mem_cons.mp hu with h1 | h1
        · rw [h1]
          exact hhead
        · exact ih hmore u h1

theorem identifyUpdatesAux_tags {v : DataValidator} {tagCol : String}
    {excelDf sqlDf : DataFrame} {cols : List String} :
    ∀ {rs : List (List Value)} {ups : List Changeset},
      identifyUpdatesAux v tagCol excelDf sqlDf cols rs = .ok ups →
      ∀ u ∈ ups, ∃ r ∈ rs, u.1 = rowGetD excelDf.columns r tagCol := by
  intro rs
  induction rs with
  | nil =>
    intro ups h u hu
    rw [identifyUpdatesAux] at h
    cases h
    simp at hu
  | cons erow rest ih =>
    intro ups h u hu
    obtain ⟨tag, hl, -, hcase⟩ := identifyUpdatesAux_cons h
    rcases hcase with ⟨-, hrest⟩ | ⟨srow, tl, changes, more, -, -, hmore, hend⟩
    · obtain ⟨r, hr, hu2⟩ := ih hrest u hu
      exact ⟨r, List.mem_cons_of_mem erow hr, hu2⟩
    · rcases hend with ⟨-, rfl⟩ | ⟨-, rfl⟩
      · obtain ⟨r, hr, hu2⟩ := ih hmore u hu
        exact ⟨r, List.mem_cons_of_mem erow hr, hu2⟩
      · rcases List.mem_cons.mp hu with h1 | h1
        · refine ⟨erow, List.mem_cons_self erow rest, ?_⟩
          rw [h1]
          exact (lookupCell_ok_rowGetD hl).symm
        · obtain ⟨r, hr, hu2⟩ := ih hmore u h1
          exact ⟨r, List.mem_cons_of_mem erow hr, hu2⟩

theorem filter_map_rowApplyUps {cols2 : List String} {tagCol : String}
    {fullUps : List Changeset}
    (hno : ∀ u ∈ fullUps, ∀ p ∈ u.2, p.1 ≠ tagCol)
    (rows : List (List Value)) (tag : Value) :
    (rows.map (rowApplyUps cols2 tagCol fullUps)).filter
      (fun r => pyEq (rowGetD cols2 r tagCol) tag) =
    (rows.filter (fun r => pyEq (rowGetD cols2 r tagCol) tag)).map
      (rowApplyUps cols2 tagCol fullUps) := by
  rw [List.filter_map]
  congr 1
  apply List.filter_congr
  intro r _
  show pyEq (rowGetD cols2 (rowApplyUps cols2 tagCol fullUps r) tagCol) tag = _
  rw [rowApplyUps_tag hno r]

/-- Re-diff induction: walking the source rows whose keys are pairwise
distinct, with the already-consumed changesets (upsPre) foreign to every
remaining row, the diff against the updated reference frame emits nothing. -/
theorem rediff_aux {v : DataValidator} {tagCol : String} {excelDf sqlDf : DataFrame}
    {cols : List String} {fullUps : List Changeset}
    (h0 : 0 ≤ v.float_threshold)
    (hrect : ∀ r ∈ sqlDf.rows, sqlDf.columns.length ≤ r.length)
    (hno : ∀ u ∈ fullUps, ∀ p ∈ u.2, p.1 ≠ tagCol) :
    ∀ {rs : List (List Value)} {ups upsPre : List Changeset},
      identifyUpdatesAux v tagCol excelDf sqlDf cols rs = .ok ups →
      fullUps = upsPre ++ ups →
      (∀ u ∈ upsPre, ∀ r ∈ rs,
        pyEq (rowGetD excelDf.columns r tagCol) u.1 = false) →
      List.Pairwise (fun r1 r2 => pyEq (rowGetD excelDf.columns r1 tagCol)
        (rowGetD excelDf.columns r2 tagCol) = false) rs →
      identifyUpdatesAux v tagCol excelDf (applyChangesets tagCol sqlDf fullUps)
        cols rs = .ok [] := by
  intro rs
  induction rs with
  | nil =>
    intro ups upsPre _ _ _ _
    rfl
  | cons erow rest ih =>
    intro ups upsPre h hsplit hfore hpair
    obtain ⟨tag, hl, hcont, hcase⟩ := identifyUpdatesAux_cons h
    have htag : rowGetD excelDf.columns erow tagCol = tag := lookupCell_ok_rowGetD hl
    rw [List.pairwise_cons] at hpair
    obtain ⟨hpairhead, hpairrest⟩ := hpair
    rw [identifyUpdatesAux, hl]
    dsimp only
    rw [applyChangesets_eq]
    dsimp only
    rw [if_pos hcont]
    rw [filter_map_rowApplyUps hno sqlDf.rows tag]
    rcases hcase with ⟨hfil, hrest⟩ | ⟨srow, tl, changes, more, hfil, hbc, hmore, hend⟩
    · rw [hfil, List.map_nil]
      have ihres := ih hrest hsplit
        (fun u hu r hr => hfore u hu r (List.mem_cons_of_mem erow hr)) hpairrest
      rw [applyChangesets_eq] at ihres
      exact ihres
    · rw [hfil, List.map_cons]
      dsimp only
      have hsrow_mem : srow ∈ sqlDf.rows.filter
          (fun r => pyEq (rowGetD sqlDf.columns r tagCol) tag) := by
        rw [hfil]
        exact List.mem_cons_self _ _
      have hsrow_rows : srow ∈ sqlDf.rows := (List.mem_filter.mp hsrow_mem).1
      have hsrow_pred : pyEq (rowGetD sqlDf.columns srow tagCol) tag = true :=
        (List.mem_filter.mp hsrow_mem).2
      have hforePre : ∀ u ∈ upsPre,
          pyEq (rowGetD sqlDf.columns srow tagCol) u.1 = false := by
        intro u hu
        have := hfore u hu erow (List.mem_cons_self erow rest)
        rw [htag] at this
        exact pyEq_false_forward hsrow_pred this
      have hforeMore : ∀ u ∈ more,
          pyEq (rowGetD sqlDf.columns srow tagCol) u.1 = false := by
        intro u hu
        obtain ⟨r, hr, hu2⟩ := identifyUpdatesAux_tags hmore u hu
        have := hpairhead r hr
        rw [htag] at this
        rw [hu2]
        exact pyEq_false_forward hsrow_pred this
      rcases hend with ⟨hch_nil, rfl⟩ | ⟨hch_ne, rfl⟩
      · -- no changeset was emitted by this row: the reference row is untouched
        have hF : rowApplyUps sqlDf.columns tagCol fullUps srow = srow := by
          apply rowApplyUps_foreign
          intro u hu
          rw [hsplit] at hu
          rcases List.mem_append.mp hu with h1 | h1
          · exact hforePre u h1
          · exact hforeMore u h1
        rw [hF]
        have hbc2 : buildChanges v excelDf
            ⟨sqlDf.columns, sqlDf.rows.map (rowApplyUps sqlDf.columns tagCol fullUps)⟩
            erow srow cols = .ok [] := by
          apply buildChanges_nil_of_eq
          intro c hc
          obtain ⟨ev, sv, hev, hsv, himp⟩ := buildChanges_complete hbc c hc
          refine ⟨ev, sv, hev, hsv, ?_⟩
          cases hcmp : compare_values v ev sv
          · rfl
          · have := himp hcmp
            rw [hch_nil] at this
            simp at this
        rw [hbc2]
        dsimp only
        have ihres := ih hmore hsplit
          (fun u hu r hr => hfore u hu r (List.mem_cons_of_mem erow hr)) hpairrest
        rw [applyChangesets_eq] at ihres
        rw [ihres]
        rfl
      · -- this row emitted (tag, changes): the reference row absorbs exactly it
        have hno_ch : ∀ p ∈ changes, p.1 ≠ tagCol := by
          apply hno (tag, changes)
          rw [hsplit]
          exact List.mem_append_right _ (List.mem_cons_self _ _)
        have hF : rowApplyUps sqlDf.columns tagCol fullUps srow =
            applyChangesToRow sqlDf.columns changes srow := by
          rw [hsplit]
          exact rowApplyUps_own
            (fun hc => hch_ne (List.isEmpty_iff.mp hc)) hno_ch upsPre more srow
            hforePre hsrow_pred hforeMore
        rw [hF]
        have hbc2 : buildChanges v excelDf
            ⟨sqlDf.columns, sqlDf.rows.map (rowApplyUps sqlDf.columns tagCol fullUps)⟩
            erow (applyChangesToRow sqlDf.columns changes srow) cols = .ok [] := by
          apply buildChanges_nil_of_eq
          intro c hc
          obtain ⟨ev, sv, hev, hsv, himp⟩ := buildChanges_complete hbc c hc
          obtain ⟨i, hci⟩ := lookupCell_ok_colIndex hsv
          have hlen : i < srow.length :=
            lt_of_lt_of_le (colIndex_lt hci) (hrect srow hsrow_rows)
          by_cases hcc : ∃ p ∈ changes, p.1 = c
          · -- the column was rewritten to the Excel value
            obtain ⟨p, hp, hpc⟩ := hcc
            have huniq : ∀ q ∈ changes, q.1 = c → q.2 = ev := by
              intro q hq hqc
              have hq2 := (buildChanges_mem hbc q hq).2.1
              rw [hqc] at hq2
              rw [hev] at hq2
              injection hq2 with hq3
              exact hq3.symm
            have hmem : (c, ev) ∈ changes := by
              have hp2 : p.2 = ev := huniq p hp hpc
              have : p = (c, ev) := by
                obtain ⟨p1, p2⟩ := p
                simp only at hpc hp2
                rw [hpc, hp2]
              rw [← this]
              exact hp
            have hval : rowGetD sqlDf.columns
                (applyChangesToRow sqlDf.columns changes srow) c = ev :=
              applyChangesToRow_getD hci changes srow hlen hmem huniq
            refine ⟨ev, ev, hev, ?_, compare_values_self v h0 ev⟩
            rw [show lookupCell
                ⟨sqlDf.columns, sqlDf.rows.map (rowApplyUps sqlDf.columns tagCol fullUps)⟩
                (applyChangesToRow sqlDf.columns changes srow) c =
              .ok (rowGetD sqlDf.columns
                (applyChangesToRow sqlDf.columns changes srow) c) from
              lookupCell_eq_ok hci _]
            rw [hval]
          · -- the column was not touched and did not differ
            have hnone : ∀ p ∈ changes, p.1 ≠ c := by
              intro p hp hpc
              exact hcc ⟨p, hp, hpc⟩
            have hval : rowGetD sqlDf.columns
                (applyChangesToRow sqlDf.columns changes srow) c =
                rowGetD sqlDf.columns srow c :=
              applyChangesToRow_rowGetD_of_notMem hnone srow
            have hsv2 : rowGetD sqlDf.columns srow c = sv := lookupCell_ok_rowGetD hsv
            refine ⟨ev, sv, hev, ?_, ?_⟩
            · rw [show lookupCell
                  ⟨sqlDf.columns, sqlDf.rows.map (rowApplyUps sqlDf.columns tagCol fullUps)⟩
                  (applyChangesToRow sqlDf.columns changes srow) c =
                .ok (rowGetD sqlDf.columns
                  (applyChangesToRow sqlDf.columns changes srow) c) from
                lookupCell_eq_ok hci _]
              rw [hval, hsv2]
            · cases hcmp : compare_values v ev sv
              · rfl
              · exact absurd ⟨(c, ev), himp hcmp, rfl⟩ hcc
        rw [hbc2]
        dsimp only
        have ihres := ih hmore (hsplit.trans (List.append_cons upsPre (tag, changes) more))
          ?_ hpairrest
        · rw [applyChangesets_eq] at ihres
          rw [ihres]
          rfl
        · intro u hu r hr
          rcases List.mem_append.mp hu with h1 | h1
          · exact hfore u h1 r (List.mem_cons_of_mem erow hr)
          · have hu2 : u = (tag, changes) := List.mem_singleton.mp h1
            rw [hu2]
            have := hpairhead r hr
            rw [htag] at this
            rw [pyEq_symm] at this
            exact this

/-- C8 counterexample: two source rows share the key "T" with conflicting
values for column c; applying both changesets leaves the reference at the
second value, and re-diffing emits the first row's changeset again - the
round trip is not empty. -/
theorem C8_counterexample :
    identify_updates defaultValidator "k"
      ⟨["k", "c"], [[Value.str "T", Value.int 1], [Value.str "T", Value.int 2]]⟩
      ⟨["k", "c"], [[Value.str "T", Value.int 0]]⟩ ["c"] =
      .ok [(Value.str "T", [("c", Value.int 1)]), (Value.str "T", [("c", Value.int 2)])] ∧
    identify_updates defaultValidator "k"
      ⟨["k", "c"], [[Value.str "T", Value.int 1], [Value.str "T", Value.int 2]]⟩
      (applyChangesets "k" ⟨["k", "c"], [[Value.str "T", Value.int 0]]⟩
        [(Value.str "T", [("c", Value.int 1)]), (Value.str "T", [("c", Value.int 2)])])
      ["c"] = .ok [(Value.str "T", [("c", Value.int 1)])] := by
  constructor
  · decide
  · decide

/-- C8 (amended): for every filtered source table whose rows carry pairwise
distinct keys, a non-negative tolerance and a rectangular reference frame,
applying every changeset produced by the diff to the reference records
(each named column set to its new value, by the same row-update core the
batch updater executes) and re-diffing the same source rows against the
updated records yields zero changesets.  With duplicate source keys the
round trip fails (counterexample). -/
theorem C8_round_trip (v : DataValidator) (tagCol : String)
    (excelDf sqlDf : DataFrame) (cols : List String) (ups : List Changeset)
    (h0 : 0 ≤ v.float_threshold)
    (hrect : ∀ r ∈ sqlDf.rows, sqlDf.columns.length ≤ r.length)
    (hdist : List.Pairwise (fun r1 r2 => pyEq (rowGetD excelDf.columns r1 tagCol)
      (rowGetD excelDf.columns r2 tagCol) = false) excelDf.rows)
    (h : identify_updates v tagCol excelDf sqlDf cols = .ok ups) :
    identify_updates v tagCol excelDf (applyChangesets tagCol sqlDf ups) cols =
      .ok [] := by
  exact rediff_aux h0 hrect (identifyUpdatesAux_no_tagCol h0 h) h
    (List.nil_append ups).symm (fun u hu => by simp at hu) hdist

/-- Witness for C8: one source row, distinct keys trivially, one changeset;
after applying it the re-diff is empty. -/
theorem C8_round_trip_witness :
    identify_updates defaultValidator "k"
      ⟨["k", "c"], [[Value.str "T", Value.int 1]]⟩
      (applyChangesets "k" ⟨["k", "c"], [[Value.str "T", Value.int 0]]⟩
        [(Value.str "T", [("c", Value.int 1)])]) ["c"] = .ok [] :=
  C8_round_trip defaultValidator "k"
    ⟨["k", "c"], [[Value.str "T", Value.int 1]]⟩
    ⟨["k", "c"], [[Value.str "T", Value.int 0]]⟩ ["c"]
    [(Value.str "T", [("c", Value.int 1)])]
    (by norm_num [defaultValidator]) (by decide) (by decide) (by decide)

end Importer
